import Mathlib

/-!
# TaskFlow API server (`server.js`): request handlers over the SQLite store

A shallow embedding of the route handlers of `server.js`.

* The three SQLite tables are lists of rows in rowid (insertion) order. An
  `INSERT` that repeats a `PRIMARY KEY` (or a `UNIQUE` email) fails; the
  declared foreign keys are not enforced, as in SQLite with its default
  settings, which the server never changes. Theorems that need the primary
  key of `tasks` assume that the ids of the rows are distinct.
* Every handler is a function from the store, the verified token claims
  (`req.user`), the clock reading of the request and the request parameters
  to the new store and the HTTP response.
* Body fields are optional strings (`none` is `undefined`); the `status` of
  a status update is a string. The query parameters `month`, `year` and
  `search` are optional query values (a string, or an array or object with
  its `String()` image); `worker` is an optional string.
* Time is a natural number of milliseconds since the epoch: `Date.now()`
  and `new Date().toISOString()` are the clock reading itself, SQLite's
  `CURRENT_TIMESTAMP` is the reading truncated to whole seconds.
* `toLowerCase`, `parseInt`, the `Date` getters and `bcrypt.hashSync` are
  fields of a `Runtime` record; `includes` and the double arithmetic of
  `Math.round((completed / total) * 100)` are defined here.
* The `err` argument of a database callback is modelled where the code
  itself provokes it: a violated `PRIMARY KEY` or `UNIQUE` constraint, and a
  statement with more placeholders than SQLite accepts. Other driver
  failures (a closed or corrupt database) are not modelled.
-/

namespace TaskFlow

/-! ## Data model (the `CREATE TABLE` statements) -/

/-- Row of the `users` table. -/
structure User where
  id : String
  email : String
  password : String
  name : String
  role : String
  created_at : Nat
deriving DecidableEq, Repr

/-- Row of the `tasks` table; `description`, `completed_at` and
`approved_at` are the nullable columns. -/
structure Task where
  id : String
  title : String
  description : Option String
  link : String
  assigned_to : String
  created_by : String
  status : String
  created_at : Nat
  completed_at : Option Nat
  approved_at : Option Nat
deriving DecidableEq, Repr

/-- Row of the `errors` table. -/
structure ErrorReport where
  id : String
  task_id : String
  description : String
  reported_by : String
  reported_at : Nat
deriving DecidableEq, Repr

/-- The database: the three tables, each in rowid order. -/
structure Store where
  users : List User
  tasks : List Task
  errors : List ErrorReport
deriving DecidableEq, Repr

/-- The claims of a verified token, `req.user` after `authenticateToken`. -/
structure AuthUser where
  id : String
  email : String
  role : String
deriving DecidableEq, Repr

/-- The outcome of a handler: `res.json(body)` (status 200),
`res.status(code).json({ error })`, or an exception thrown inside a database
callback, after which no response is sent. -/
inductive Response (α : Type) where
  | json (body : α)
  | fail (code : Nat) (error : String)
  | threw (error : String)
deriving DecidableEq, Repr

/-- The response is a 200 with a JSON body. -/
def Response.isJson {α : Type} : Response α → Bool
  | Response.json _ => true
  | Response.fail _ _ => false
  | Response.threw _ => false

/-- The database right after `initializeDatabase` on a fresh file, before the
seed users are inserted: every table is empty. -/
def emptyStore : Store := { users := [], tasks := [], errors := [] }

/-- SQLite `CURRENT_TIMESTAMP` at clock reading `now`: whole seconds. -/
def currentTimestamp (now : Nat) : Nat := now / 1000 * 1000

/-! ## `PATCH /api/tasks/:id/status` -/

/-- The `['pending', 'completed', 'approved']` array of the handler. -/
def allowedStatuses : List String := ["pending", "completed", "approved"]

/-- The `SET` clause of the `UPDATE` built by the handler: the status, and
`completed_at` or `approved_at` when the target is completed or approved. -/
def setStatus (status : String) (timestamp : Nat) (t : Task) : Task :=
  if status = "completed" then
    { t with status := status, completed_at := some timestamp }
  else if status = "approved" then
    { t with status := status, approved_at := some timestamp }
  else
    { t with status := status }

/-- The `WHERE` clause of the `UPDATE`: `id = ?`, and `AND assigned_to = ?`
when the requester's role is `worker`. -/
def updateMatches (user : AuthUser) (id : String) (t : Task) : Bool :=
  decide (t.id = id) && (!decide (user.role = "worker") || decide (t.assigned_to = user.id))

/-- The store after the `UPDATE tasks SET ... WHERE ...` statement. -/
def updateRows (s : Store) (user : AuthUser) (now : Nat) (id status : String) : Store :=
  { s with tasks := s.tasks.map fun t =>
      if updateMatches user id t then setStatus status now t else t }

/-- The handler of `PATCH /api/tasks/:id/status`; `changes` is the number of
rows the `UPDATE` matched, and the body is the row `SELECT * FROM tasks WHERE
id = ?` returns afterwards. -/
def updateTaskStatus (s : Store) (user : AuthUser) (now : Nat) (id status : String) :
    Store × Response (Option Task) :=
  if status ∉ allowedStatuses then
    (s, Response.fail 400 "Invalid status")
  else if user.role = "worker" ∧ status ≠ "completed" then
    (s, Response.fail 403 "Workers can only mark tasks as completed")
  else if status = "approved" ∧ user.role ≠ "admin" then
    (s, Response.fail 403 "Only admins can approve tasks")
  else
    let changes := (s.tasks.filter (updateMatches user id)).length
    if changes = 0 then
      (s, Response.fail 404 "Task not found or unauthorized")
    else
      let s' := updateRows s user now id status
      (s', Response.json (s'.tasks.find? fun t => decide (t.id = id)))

/-! ## JavaScript values and built-ins used by the handlers -/

/-- JavaScript truthiness of an optional string (a body field or query
parameter): `undefined` and the empty string are falsy. -/
def truthy : Option String → Bool
  | some v => decide (v ≠ "")
  | none => false

/-- A value of `req.query`: a string, or an array or object built by the
query-string parser from a repeated or bracketed key; `text` is what
`String(value)` gives for it. -/
inductive QueryValue where
  | str (s : String)
  | other (text : String)
deriving DecidableEq, Repr

/-- JavaScript truthiness of an optional query value: `undefined` and the
empty string are falsy, arrays and objects are truthy. -/
def queryTruthy : Option QueryValue → Bool
  | some (QueryValue.str s) => decide (s ≠ "")
  | some (QueryValue.other _) => true
  | none => false

/-- The string `parseInt` reads from a query value. -/
def queryText : Option QueryValue → String
  | some (QueryValue.str s) => s
  | some (QueryValue.other text) => text
  | none => "undefined"

/-- The largest number of `?` placeholders a statement may have
(`SQLITE_MAX_VARIABLE_NUMBER` of the SQLite library the driver bundles); a
statement with more fails and the driver passes the error to the callback. -/
def maxVariableNumber : Nat := 32766

/-- The built-ins of the JavaScript runtime that the handlers call and that
are not re-implemented here: `String.prototype.toLowerCase`, `parseInt`
(`none` is `NaN`), `Date.prototype.getMonth` and `getFullYear` of
`new Date(created_at)`, and `bcrypt.hashSync`. -/
structure Runtime where
  toLowerCase : String → String
  parseInt : String → Option Int
  getMonth : Nat → Int
  getFullYear : Nat → Int
  hashSync : String → String

/-- The list `xs` starts with the list `ys`. -/
def startsWithChars : List Char → List Char → Bool
  | _, [] => true
  | [], _ :: _ => false
  | x :: xs, y :: ys => decide (x = y) && startsWithChars xs ys

/-- The list `ys` occurs in `xs` as a contiguous block. -/
def includesChars : List Char → List Char → Bool
  | [], ys => startsWithChars [] ys
  | x :: xs, ys => startsWithChars (x :: xs) ys || includesChars xs ys

/-- JavaScript `String.prototype.includes`. -/
def includes (s sub : String) : Bool := includesChars s.data sub.data

/-! ### IEEE 754 double arithmetic on the values `computeStats` meets

A finite non-negative double is `mant * 2 ^ exp`. Rounding is to nearest,
ties to even, with a 53-bit significand; the exponent range is not bounded
(no overflow or subnormals arise for quotients of array lengths). -/

/-- A finite non-negative double, `mant * 2 ^ exp`. -/
structure Double where
  mant : Nat
  exp : Int
deriving DecidableEq, Repr

/-- The integer nearest to `a / d`, ties to the even one. -/
def roundHalfEven (a d : Nat) : Nat :=
  if 2 * (a % d) < d then a / d
  else if d < 2 * (a % d) then a / d + 1
  else if a / d % 2 = 0 then a / d
  else a / d + 1

/-- Binary logarithm with a recursion budget: the number of halvings that
bring `n` below 2. -/
def log2Fuel : Nat → Nat → Nat
  | 0, _ => 0
  | fuel + 1, n => if n < 2 then 0 else log2Fuel fuel (n / 2) + 1

/-- The position of the leading bit of `n` (0 for `n = 0`). -/
def log2Floor (n : Nat) : Nat := log2Fuel n n

/-- The shift `sh` for which `n / d * 2 ^ sh` lies in `[2 ^ 52, 2 ^ 53)`. -/
def normShift (n d : Nat) : Int :=
  let sh0 : Int := 52 - ((log2Floor n : Int) - (log2Floor d : Int))
  if n * 2 ^ sh0.toNat < 2 ^ 52 * (d * 2 ^ (-sh0).toNat) then sh0 + 1 else sh0

/-- The double nearest to the rational `n / d` (`d` positive). -/
def Double.ofRat (n d : Nat) : Double :=
  if n = 0 then { mant := 0, exp := 0 }
  else
    let sh := normShift n d
    { mant := roundHalfEven (n * 2 ^ sh.toNat) (d * 2 ^ (-sh).toNat), exp := -sh }

/-- JavaScript `a / b` on two non-negative integers (exact as doubles), `b`
positive. -/
def Double.div (a b : Nat) : Double := Double.ofRat a b

/-- JavaScript `x * k` for a double `x` and a non-negative integer `k`. -/
def Double.mulNat (x : Double) (k : Nat) : Double :=
  Double.ofRat (x.mant * k * 2 ^ x.exp.toNat) (2 ^ (-x.exp).toNat)

/-- JavaScript `Math.round` on a non-negative double: the floor of
`x + 1/2`, computed exactly. -/
def Double.mathRound (x : Double) : Nat :=
  (2 * (x.mant * 2 ^ x.exp.toNat) + 2 ^ (-x.exp).toNat) / (2 * 2 ^ (-x.exp).toNat)

/-! ## `POST /api/auth/register` and the token payload -/

/-- The payload `jwt.sign` puts in the token at login. -/
def tokenClaims (u : User) : AuthUser := { id := u.id, email := u.email, role := u.role }

/-- The body of a successful registration. -/
structure Registered where
  message : String
  id : String
  email : String
  name : String
  role : String
deriving DecidableEq, Repr

/-- The handler of `POST /api/auth/register`. A violated `UNIQUE` or
`PRIMARY KEY` constraint gives an error message that contains `UNIQUE`. -/
def registerUser (rt : Runtime) (s : Store) (user : AuthUser) (now : Nat)
    (email password name role : Option String) : Store × Response Registered :=
  if user.role ≠ "admin" then
    (s, Response.fail 403 "Admin access required")
  else if !truthy email || !truthy password || !truthy name || !truthy role then
    (s, Response.fail 400 "All fields required")
  else
    let id := "user_" ++ toString now
    let row : User :=
      { id := id, email := email.getD "", password := rt.hashSync (password.getD ""),
        name := name.getD "", role := role.getD "", created_at := currentTimestamp now }
    if (s.users.any fun u => decide (u.id = id) || decide (u.email = row.email)) then
      (s, Response.fail 400 "Email already exists")
    else
      ({ s with users := s.users ++ [row] },
        Response.json
          { message := "User created successfully", id := id, email := row.email,
            name := row.name, role := row.role })

/-! ## `POST /api/tasks` -/

/-- A task with its `errors` array, as the task routes return it. -/
structure TaskWithErrors where
  task : Task
  errors : List ErrorReport
deriving DecidableEq, Repr

/-- The handler of `POST /api/tasks`. The id is `task_` followed by
`Date.now()`; the `INSERT` fails on a duplicate primary key. -/
def createTask (s : Store) (user : AuthUser) (now : Nat)
    (title description link assignedTo : Option String) :
    Store × Response (Option TaskWithErrors) :=
  if user.role ≠ "admin" then
    (s, Response.fail 403 "Admin access required")
  else if !truthy title || !truthy link || !truthy assignedTo then
    (s, Response.fail 400 "Title, link, and assignedTo are required")
  else
    let id := "task_" ++ toString now
    let row : Task :=
      { id := id, title := title.getD "",
        description := some (if truthy description then description.getD "" else ""),
        link := link.getD "", assigned_to := assignedTo.getD "", created_by := user.id,
        status := "pending", created_at := currentTimestamp now,
        completed_at := none, approved_at := none }
    if (s.tasks.any fun t => decide (t.id = id)) then
      (s, Response.fail 500 "Database error")
    else
      let s' : Store := { s with tasks := s.tasks ++ [row] }
      (s', Response.json
        ((s'.tasks.find? fun t => decide (t.id = id)).map fun t =>
          { task := t, errors := [] }))

/-! ## `POST /api/tasks/:id/errors` and `GET /api/tasks/:id/errors` -/

/-- The handler of `POST /api/tasks/:id/errors`. The id is `error_` followed
by `Date.now()`; the `INSERT` fails on a duplicate primary key. Foreign keys
are declared but SQLite does not enforce them unless switched on, and the
server never switches them on. -/
def addError (s : Store) (user : AuthUser) (now : Nat) (taskId : String)
    (description : Option String) : Store × Response (Option ErrorReport) :=
  if user.role ≠ "admin" then
    (s, Response.fail 403 "Admin access required")
  else if !truthy description then
    (s, Response.fail 400 "Error description required")
  else
    let errorId := "error_" ++ toString now
    let row : ErrorReport :=
      { id := errorId, task_id := taskId, description := description.getD "",
        reported_by := user.id, reported_at := currentTimestamp now }
    if (s.errors.any fun e => decide (e.id = errorId)) then
      (s, Response.fail 500 "Database error")
    else
      let s' : Store := { s with errors := s.errors ++ [row] }
      (s', Response.json (s'.errors.find? fun e => decide (e.id = errorId)))

/-- The handler of `GET /api/tasks/:id/errors`. -/
def listErrorsForTask (s : Store) (id : String) : Response (List ErrorReport) :=
  Response.json (s.errors.filter fun e => decide (e.task_id = id))

/-! ## `GET /api/tasks` -/

/-- The query string of `GET /api/tasks` (and of `GET /api/stats`, which
reads no `search`). The `worker` parameter is bound to the `SELECT` and is
modelled for string values. -/
structure TaskQuery where
  worker : Option String
  month : Option QueryValue
  year : Option QueryValue
  search : Option QueryValue
deriving DecidableEq, Repr

/-- The `WHERE` clause both list routes build: `assigned_to = worker` when a
worker filter other than `all` is given, and `assigned_to = req.user.id` when
the requester's role is `worker`; the two conditions are joined by `AND`. -/
def assigneeClause (user : AuthUser) (worker : Option String) (t : Task) : Bool :=
  (if truthy worker = true ∧ worker ≠ some "all" then decide (some t.assigned_to = worker)
    else true) &&
  (if user.role = "worker" then decide (t.assigned_to = user.id) else true)

/-- The rows the `SELECT` of `GET /api/stats` returns (no `ORDER BY`). -/
def selectTasks (s : Store) (user : AuthUser) (worker : Option String) : List Task :=
  s.tasks.filter (assigneeClause user worker)

/-- The rows the `SELECT` of `GET /api/tasks` returns:
`ORDER BY created_at DESC`. -/
def selectTasksOrdered (s : Store) (user : AuthUser) (worker : Option String) : List Task :=
  (selectTasks s user worker).insertionSort fun a b => b.created_at ≤ a.created_at

/-- The `errorsByTask` object after the `forEach`: for each task id that has
errors, its errors in the order they were read. Task ids are generated as
`task_` followed by digits, so no key meets a member of `Object.prototype`. -/
def groupErrors (errors : List ErrorReport) : List (String × List ErrorReport) :=
  errors.foldl
    (fun acc e =>
      if acc.any (fun kv => decide (kv.1 = e.task_id)) then
        acc.map fun kv => if kv.1 = e.task_id then (kv.1, kv.2 ++ [e]) else kv
      else acc ++ [(e.task_id, [e])])
    []

/-- The lookup `errorsByTask[id] || []`. -/
def lookupErrors (errorsByTask : List (String × List ErrorReport)) (id : String) :
    List ErrorReport :=
  match errorsByTask.find? fun kv => decide (kv.1 = id) with
  | some kv => kv.2
  | none => []

/-- The month and year filter shared by both list routes, applied to a
`created_at`. -/
def dateMatches (rt : Runtime) (month year : Option QueryValue) (created_at : Nat) : Bool :=
  let matchMonth :=
    !queryTruthy month || decide (some (rt.getMonth created_at) = rt.parseInt (queryText month))
  let matchYear :=
    !queryTruthy year || decide (some (rt.getFullYear created_at) = rt.parseInt (queryText year))
  matchMonth && matchYear

/-- The search filter of `GET /api/tasks`. -/
def searchMatches (rt : Runtime) (search : String) (t : Task) : Bool :=
  let searchLower := rt.toLowerCase search
  includes (rt.toLowerCase t.title) searchLower ||
    (truthy t.description && includes (rt.toLowerCase (t.description.getD "")) searchLower)

/-- The handler of `GET /api/tasks`. The errors query has one placeholder per
selected task, so it fails (`err`, answered 500) when more tasks are selected
than a statement may have placeholders. A truthy `search` that is not a string
has no `toLowerCase`, so the call throws inside the callback. -/
def listTasks (rt : Runtime) (s : Store) (user : AuthUser) (q : TaskQuery) :
    Response (List TaskWithErrors) :=
  let tasks := selectTasksOrdered s user q.worker
  let taskIds := tasks.map Task.id
  if taskIds.length = 0 then Response.json []
  else if maxVariableNumber < taskIds.length then Response.fail 500 "Database error"
  else
    let errors := s.errors.filter fun e => decide (e.task_id ∈ taskIds)
    let errorsByTask := groupErrors errors
    let tasksWithErrors : List TaskWithErrors :=
      tasks.map fun t => { task := t, errors := lookupErrors errorsByTask t.id }
    let filtered :=
      if queryTruthy q.month || queryTruthy q.year then
        tasksWithErrors.filter fun t => dateMatches rt q.month q.year t.task.created_at
      else tasksWithErrors
    match q.search with
    | some (QueryValue.other _) =>
        Response.threw "TypeError: search.toLowerCase is not a function"
    | some (QueryValue.str search) =>
        if search ≠ "" then
          Response.json (filtered.filter fun t => searchMatches rt search t.task)
        else Response.json filtered
    | none => Response.json filtered

/-! ## `GET /api/stats` -/

/-- The body of `GET /api/stats`. -/
structure Stats where
  total : Nat
  completed : Nat
  approved : Nat
  pending : Nat
  errors : Nat
  successRate : Nat
deriving DecidableEq, Repr

/-- The tasks `GET /api/stats` counts: the selected rows after the date
filter. -/
def statsTasks (rt : Runtime) (s : Store) (user : AuthUser) (q : TaskQuery) : List Task :=
  let tasks := selectTasks s user q.worker
  if queryTruthy q.month || queryTruthy q.year then
    tasks.filter fun t => dateMatches rt q.month q.year t.created_at
  else tasks

/-- The expression `total > 0 ? Math.round((completed / total) * 100) : 0`. -/
def successRate (completed total : Nat) : Nat :=
  if total > 0 then ((Double.div completed total).mulNat 100).mathRound else 0

/-- The handler of `GET /api/stats`. The count query has one placeholder per
counted task, so it fails (`err`, answered 500) when more tasks are counted
than a statement may have placeholders. -/
def computeStats (rt : Runtime) (s : Store) (user : AuthUser) (q : TaskQuery) :
    Response Stats :=
  let filtered := statsTasks rt s user q
  let total := filtered.length
  let completed :=
    (filtered.filter fun t => decide (t.status = "completed") || decide (t.status = "approved")).length
  let approved := (filtered.filter fun t => decide (t.status = "approved")).length
  let pending := (filtered.filter fun t => decide (t.status = "pending")).length
  let taskIds := filtered.map Task.id
  if taskIds.length = 0 then
    Response.json
      { total := 0, completed := 0, approved := 0, pending := 0, errors := 0, successRate := 0 }
  else if maxVariableNumber < taskIds.length then Response.fail 500 "Database error"
  else
    let errorCount := (s.errors.filter fun e => decide (e.task_id ∈ taskIds)).length
    Response.json
      { total := total, completed := completed, approved := approved, pending := pending,
        errors := errorCount, successRate := successRate completed total }

/-! ## Histories of requests -/

/-- The three mutating task routes with the parameters of one request. -/
inductive Call where
  | createTask (title description link assignedTo : Option String)
  | updateTaskStatus (id status : String)
  | addError (taskId : String) (description : Option String)
deriving DecidableEq, Repr

/-- One request: who sends it, the clock reading when it is handled, and the
call. -/
structure Request where
  user : AuthUser
  now : Nat
  call : Call
deriving DecidableEq, Repr

/-- The store after the request is handled. -/
def step (s : Store) (r : Request) : Store :=
  match r.call with
  | Call.createTask title description link assignedTo =>
      (createTask s r.user r.now title description link assignedTo).1
  | Call.updateTaskStatus id status => (updateTaskStatus s r.user r.now id status).1
  | Call.addError taskId description => (addError s r.user r.now taskId description).1

/-- Whether the request is answered with status 200. -/
def succeeds (s : Store) (r : Request) : Bool :=
  match r.call with
  | Call.createTask title description link assignedTo =>
      (createTask s r.user r.now title description link assignedTo).2.isJson
  | Call.updateTaskStatus id status => (updateTaskStatus s r.user r.now id status).2.isJson
  | Call.addError taskId description => (addError s r.user r.now taskId description).2.isJson

/-- The store after the requests are handled one after the other. -/
def run (s : Store) (reqs : List Request) : Store := reqs.foldl step s

/-- The log of a history started in `s`: every request with whether it was
answered with status 200, in the order handled. -/
def outcomes (s : Store) : List Request → List (Request × Bool)
  | [] => []
  | r :: rs => (r, succeeds s r) :: outcomes (step s r) rs

/-- Some request of the log is a status update of task `id` with target
`status` that was answered with status 200. -/
def updated (log : List (Request × Bool)) (id status : String) : Prop :=
  ∃ e ∈ log, e.2 = true ∧ e.1.call = Call.updateTaskStatus id status

/-- What a history from an empty tasks table maintains: task ids are
distinct, every successful status update in the log is on a task of the table,
and for every task the completed time is set exactly when the log holds a
successful update of it to completed, the approved time only when the log
holds a successful update of it to approved, and a completed (approved)
status comes with a completed (approved) time. -/
def HistoryInv (tasks : List Task) (log : List (Request × Bool)) : Prop :=
  (tasks.map Task.id).Nodup ∧
  (∀ id status, updated log id status → ∃ t ∈ tasks, t.id = id) ∧
  ∀ t ∈ tasks,
    (t.completed_at ≠ none ↔ updated log t.id "completed") ∧
    (t.approved_at ≠ none → updated log t.id "approved") ∧
    (t.status = "completed" → t.completed_at ≠ none) ∧
    (t.status = "approved" → t.approved_at ≠ none)

/-! ## The list filter in the words of the specification -/

/-- The string `sub` is a substring of `s`. -/
def IsSubstring (sub s : String) : Prop :=
  ∃ pre post : List Char, s.data = pre ++ sub.data ++ post

/-- The filter of the task list as the specification words it: no month
filter or the created-month equals the requested month, and no year filter or
the created-year equals the requested year, and no search or the lower-cased
search is a substring of the lower-cased title or of the lower-cased
non-empty description. -/
def Kept (rt : Runtime) (q : TaskQuery) (t : Task) : Prop :=
  (queryTruthy q.month = false ∨
    rt.parseInt (queryText q.month) = some (rt.getMonth t.created_at)) ∧
  (queryTruthy q.year = false ∨
    rt.parseInt (queryText q.year) = some (rt.getFullYear t.created_at)) ∧
  (queryTruthy q.search = false ∨
    IsSubstring (rt.toLowerCase (queryText q.search)) (rt.toLowerCase t.title) ∨
    ∃ d, t.description = some d ∧ d ≠ "" ∧
      IsSubstring (rt.toLowerCase (queryText q.search)) (rt.toLowerCase d))

/-! ## Reference runtime for closed examples -/

/-- Year and zero-based month of the UTC calendar day of a clock reading
(proleptic Gregorian calendar). -/
def civil (ms : Nat) : Nat × Nat :=
  let z := ms / 86400000 + 719468
  let era := z / 146097
  let doe := z % 146097
  let yoe := (doe - doe / 1460 + doe / 36524 - doe / 146096) / 365
  let doy := doe - (365 * yoe + yoe / 4 - yoe / 100)
  let mp := (5 * doy + 2) / 153
  let m := if mp < 10 then mp + 3 else mp - 9
  (if m ≤ 2 then yoe + era * 400 + 1 else yoe + era * 400, m - 1)

/-- Decimal digits of a string as a number, `none` when the string is not a
plain non-empty run of digits. -/
def parseDecimal (s : String) : Option Int :=
  if s.data ≠ [] ∧ s.data.all Char.isDigit then
    some (s.data.foldl (fun acc c => acc * 10 + (c.toNat - 48)) 0 : Nat)
  else none

/-- A runtime that agrees with JavaScript on ASCII strings, on plain decimal
numerals and on the calendar fields of a stored `CURRENT_TIMESTAMP`; the
password hash is a stand-in. -/
def refRuntime : Runtime :=
  { toLowerCase := fun s => String.mk (s.data.map Char.toLower)
    parseInt := parseDecimal
    getMonth := fun ms => ((civil ms).2 : Int)
    getFullYear := fun ms => ((civil ms).1 : Int)
    hashSync := fun p => "$2a$10$" ++ p }

/-! ## Example data (the seed users and the task of the scenarios) -/

/-- Token claims of the seed user `admin1`. -/
def admin1 : AuthUser := { id := "admin1", email := "admin@example.com", role := "admin" }

/-- Token claims of the seed user `worker1`. -/
def worker1 : AuthUser := { id := "worker1", email := "worker@example.com", role := "worker" }

/-- Token claims of the seed user `worker2`. -/
def worker2 : AuthUser := { id := "worker2", email := "worker2@example.com", role := "worker" }

/-- The store after `admin1` creates the task of scenario A at clock reading
`1000`. -/
def storeA : Store :=
  (createTask emptyStore admin1 1000 (some "Fix link") none (some "http://x")
    (some "worker1")).1

/-- The history of scenario A: `admin1` creates the task at clock reading
`1000`. -/
def historyA : List Request :=
  [{ user := admin1, now := 1000,
     call := Call.createTask (some "Fix link") none (some "http://x") (some "worker1") }]

/-- The task of scenario A as stored. -/
def taskA : Task :=
  { id := "task_1000", title := "Fix link", description := some "", link := "http://x",
    assigned_to := "worker1", created_by := "admin1", status := "pending",
    created_at := 1000, completed_at := none, approved_at := none }

/-- The store after `admin1` also registers a user with the role string
`manager` at clock reading `2000`. -/
def storeManager : Store :=
  (registerUser refRuntime storeA admin1 2000 (some "manager@example.com") (some "secret")
    (some "Manager") (some "manager")).1

/-- Token claims of the registered `manager` user. -/
def manager : AuthUser :=
  { id := "user_2000", email := "manager@example.com", role := "manager" }

/-- A query with no parameters. -/
def noQuery : TaskQuery := { worker := none, month := none, year := none, search := none }

/-- The history of scenarios A to C: `admin1` creates the task, `worker2`
is refused, `worker1` completes it and `admin1` approves it. -/
def historyC : List Request :=
  [{ user := admin1, now := 1000,
     call := Call.createTask (some "Fix link") none (some "http://x") (some "worker1") },
   { user := worker2, now := 4000, call := Call.updateTaskStatus "task_1000" "completed" },
   { user := worker1, now := 5000, call := Call.updateTaskStatus "task_1000" "completed" },
   { user := admin1, now := 6000, call := Call.updateTaskStatus "task_1000" "approved" }]

/-- The task of scenario A after scenarios B and C. -/
def taskC : Task :=
  { id := "task_1000", title := "Fix link", description := some "", link := "http://x",
    assigned_to := "worker1", created_by := "admin1", status := "approved",
    created_at := 1000, completed_at := some 5000, approved_at := some 6000 }

/-- The history of scenarios A to E with two more tasks: `admin1` creates
three tasks, `worker1` completes the first and `admin1` approves it, `worker2`
completes the third, and `admin1` logs two error reports against the first. -/
def historyE : List Request :=
  [{ user := admin1, now := 1000,
     call := Call.createTask (some "Fix link") none (some "http://x") (some "worker1") },
   { user := admin1, now := 2000,
     call := Call.createTask (some "Check page") (some "Landing page") (some "http://y")
       (some "worker1") },
   { user := admin1, now := 3000,
     call := Call.createTask (some "Update logo") none (some "http://z") (some "worker2") },
   { user := worker1, now := 5000, call := Call.updateTaskStatus "task_1000" "completed" },
   { user := admin1, now := 6000, call := Call.updateTaskStatus "task_1000" "approved" },
   { user := worker2, now := 6500, call := Call.updateTaskStatus "task_3000" "completed" },
   { user := admin1, now := 7000, call := Call.addError "task_1000" (some "broken link") },
   { user := admin1, now := 8000, call := Call.addError "task_1000" (some "wrong title") }]

/-- The store after `historyE`. -/
def storeE : Store := run emptyStore historyE

/-- The first error report of `storeE`. -/
def errorE1 : ErrorReport :=
  { id := "error_7000", task_id := "task_1000", description := "broken link",
    reported_by := "admin1", reported_at := 7000 }

/-- The second error report of `storeE`. -/
def errorE2 : ErrorReport :=
  { id := "error_8000", task_id := "task_1000", description := "wrong title",
    reported_by := "admin1", reported_at := 8000 }

/-- The second task of `storeE`. -/
def taskE2 : Task :=
  { id := "task_2000", title := "Check page", description := some "Landing page",
    link := "http://y", assigned_to := "worker1", created_by := "admin1", status := "pending",
    created_at := 2000, completed_at := none, approved_at := none }

/-- A query for January 1970 with the search `FIX`. -/
def queryFix : TaskQuery :=
  { worker := none, month := some (QueryValue.str "0"), year := some (QueryValue.str "1970"),
    search := some (QueryValue.str "FIX") }

/-- A query for January 1970. -/
def queryJanuary : TaskQuery :=
  { worker := none, month := some (QueryValue.str "0"), year := some (QueryValue.str "1970"),
    search := none }

/-- A query for June. -/
def queryJune : TaskQuery :=
  { worker := none, month := some (QueryValue.str "5"), year := none, search := none }

/-- A query whose `search` is the array the parser builds from
`?search=fix&search=link`. -/
def queryArraySearch : TaskQuery :=
  { worker := none, month := none, year := none, search := some (QueryValue.other "fix,link") }

/-- Row number `i` of `bigStore`: a pending task of `worker1` created at clock
reading `1700000000000 + i` (14 November 2023). -/
def bigTask (i : Nat) : Task :=
  { id := "task_" ++ toString (1700000000000 + i), title := "Task", description := some "",
    link := "http://x", assigned_to := "worker1", created_by := "admin1", status := "pending",
    created_at := currentTimestamp (1700000000000 + i), completed_at := none,
    approved_at := none }

/-- A store with 32767 tasks, one more than a statement may have
placeholders, created at consecutive clock readings. -/
def bigStore : Store :=
  { users := [], tasks := (List.range 32767).map bigTask, errors := [] }

/-! ## Theorems -/

/-- The `UPDATE` touches a row exactly when one matches the `WHERE` clause. -/
theorem changes_eq_zero_iff (s : Store) (user : AuthUser) (id : String) :
    (s.tasks.filter (updateMatches user id)).length = 0 ↔
      ∀ t ∈ s.tasks, updateMatches user id t = false := by
  rw [List.length_eq_zero, List.filter_eq_nil_iff]
  simp

/-- The status update answers 200 exactly when the three guards pass and the
`UPDATE` matches a row. -/
theorem updateTaskStatus_isJson_iff (s : Store) (user : AuthUser) (now : Nat)
    (id status : String) :
    (updateTaskStatus s user now id status).2.isJson = true ↔
      status ∈ allowedStatuses ∧ ¬ (user.role = "worker" ∧ status ≠ "completed") ∧
      ¬ (status = "approved" ∧ user.role ≠ "admin") ∧
      ∃ t ∈ s.tasks, updateMatches user id t = true := by
  have hch := changes_eq_zero_iff s user id
  unfold updateTaskStatus
  dsimp only
  by_cases h1 : status ∈ allowedStatuses
  · rw [if_neg (not_not.2 h1)]
    by_cases h2 : user.role = "worker" ∧ status ≠ "completed"
    · rw [if_pos h2]
      simp only [Response.isJson, Bool.false_eq_true, false_iff]
      exact fun h => h.2.1 h2
    · rw [if_neg h2]
      by_cases h3 : status = "approved" ∧ user.role ≠ "admin"
      · rw [if_pos h3]
        simp only [Response.isJson, Bool.false_eq_true, false_iff]
        exact fun h => h.2.2.1 h3
      · rw [if_neg h3]
        by_cases h4 : (s.tasks.filter (updateMatches user id)).length = 0
        · rw [if_pos h4]
          simp only [Response.isJson, Bool.false_eq_true, false_iff]
          rintro ⟨_, _, _, t, ht, hm⟩
          rw [hch.1 h4 t ht] at hm
          exact Bool.false_ne_true hm
        · rw [if_neg h4]
          simp only [Response.isJson, true_iff]
          refine ⟨h1, h2, h3, ?_⟩
          by_contra hcon
          push_neg at hcon
          exact h4 (hch.2 fun t ht => by simpa using hcon t ht)
  · rw [if_pos h1]
    simp only [Response.isJson, Bool.false_eq_true, false_iff]
    exact fun h => h1 h.1

/-- A successful status update returns the store after the `UPDATE` and the
row read back. -/
theorem updateTaskStatus_eq_of_isJson (s : Store) (user : AuthUser) (now : Nat)
    (id status : String) (h : (updateTaskStatus s user now id status).2.isJson = true) :
    updateTaskStatus s user now id status =
      (updateRows s user now id status,
        Response.json ((updateRows s user now id status).tasks.find? fun t => decide (t.id = id))) := by
  unfold updateTaskStatus at h ⊢
  dsimp only at h ⊢
  by_cases h1 : status ∉ allowedStatuses
  · rw [if_pos h1] at h; simp [Response.isJson] at h
  · rw [if_neg h1] at h ⊢
    by_cases h2 : user.role = "worker" ∧ status ≠ "completed"
    · rw [if_pos h2] at h; simp [Response.isJson] at h
    · rw [if_neg h2] at h ⊢
      by_cases h3 : status = "approved" ∧ user.role ≠ "admin"
      · rw [if_pos h3] at h; simp [Response.isJson] at h
      · rw [if_neg h3] at h ⊢
        by_cases h4 : (s.tasks.filter (updateMatches user id)).length = 0
        · rw [if_pos h4] at h; simp [Response.isJson] at h
        · rw [if_neg h4]

/-- A refused status update leaves the store as it was. -/
theorem updateTaskStatus_fst_of_not_isJson (s : Store) (user : AuthUser) (now : Nat)
    (id status : String) (h : (updateTaskStatus s user now id status).2.isJson = false) :
    (updateTaskStatus s user now id status).1 = s := by
  unfold updateTaskStatus at h ⊢
  dsimp only at h ⊢
  by_cases h1 : status ∉ allowedStatuses
  · rw [if_pos h1]
  · rw [if_neg h1] at h ⊢
    by_cases h2 : user.role = "worker" ∧ status ≠ "completed"
    · rw [if_pos h2]
    · rw [if_neg h2] at h ⊢
      by_cases h3 : status = "approved" ∧ user.role ≠ "admin"
      · rw [if_pos h3]
      · rw [if_neg h3] at h ⊢
        by_cases h4 : (s.tasks.filter (updateMatches user id)).length = 0
        · rw [if_pos h4]
        · rw [if_neg h4] at h; simp [Response.isJson] at h

/-- C1: for a requester whose role is admin or worker, the status update
succeeds exactly when the status is pending, completed or approved, a task
with the given id exists, and the requester is an admin or is a worker asking
for completed on a task assigned to them. -/
theorem updateTaskStatus_succeeds_iff (s : Store) (user : AuthUser) (now : Nat)
    (id status : String) (hrole : user.role = "admin" ∨ user.role = "worker") :
    (updateTaskStatus s user now id status).2.isJson = true ↔
      (status = "pending" ∨ status = "completed" ∨ status = "approved") ∧
      ∃ t ∈ s.tasks, t.id = id ∧
        (user.role = "admin" ∨
          (user.role = "worker" ∧ status = "completed" ∧ t.assigned_to = user.id)) := by
  have hne : ("admin" : String) ≠ "worker" := by decide
  have hca : ("completed" : String) ≠ "approved" := by decide
  rw [updateTaskStatus_isJson_iff]
  have hst : status ∈ allowedStatuses ↔
      (status = "pending" ∨ status = "completed" ∨ status = "approved") := by
    simp [allowedStatuses]
  rw [hst]
  rcases hrole with hadm | hwrk
  · have hnw : user.role ≠ "worker" := by rw [hadm]; exact hne
    constructor
    · rintro ⟨h, _, _, t, ht, hm⟩
      simp only [updateMatches, Bool.and_eq_true, decide_eq_true_eq] at hm
      exact ⟨h, t, ht, hm.1, Or.inl hadm⟩
    · rintro ⟨h, t, ht, hid, _⟩
      refine ⟨h, fun hh => hnw hh.1, fun hh => hh.2 hadm, t, ht, ?_⟩
      simp [updateMatches, hid, hnw]
  · have hna : user.role ≠ "admin" := by rw [hwrk]; exact hne.symm
    constructor
    · rintro ⟨h, h2, _, t, ht, hm⟩
      have hc : status = "completed" := by
        by_contra hc
        exact h2 ⟨hwrk, hc⟩
      simp only [updateMatches, Bool.and_eq_true, decide_eq_true_eq, Bool.or_eq_true,
        Bool.not_eq_true', decide_eq_false_iff_not] at hm
      rcases hm with ⟨hid, hnot | hown⟩
      · exact absurd hwrk hnot
      · exact ⟨h, t, ht, hid, Or.inr ⟨hwrk, hc, hown⟩⟩
    · rintro ⟨h, t, ht, hid, hor⟩
      rcases hor with hadm | ⟨_, hc, hown⟩
      · exact absurd hadm hna
      · refine ⟨h, fun hh => hh.2 hc, fun hh => hca (hc.symm.trans hh.1), t, ht, ?_⟩
        simp [updateMatches, hid, hown]

/-- C1 at the example store: the admin may move the task of `worker1` to
pending. -/
theorem updateTaskStatus_succeeds_iff_witness :
    (admin1.role = "admin" ∨ admin1.role = "worker") ∧
    ((updateTaskStatus storeA admin1 5000 "task_1000" "pending").2.isJson = true ↔
      ("pending" = "pending" ∨ "pending" = "completed" ∨ "pending" = "approved") ∧
      ∃ t ∈ storeA.tasks, t.id = "task_1000" ∧
        (admin1.role = "admin" ∨
          (admin1.role = "worker" ∧ "pending" = "completed" ∧ t.assigned_to = admin1.id))) :=
  ⟨by decide, updateTaskStatus_succeeds_iff storeA admin1 5000 "task_1000" "pending" (by decide)⟩

/-- C2: a worker asking for completed on a task that exists but is assigned
to someone else gets 404 `Task not found or unauthorized`, the store is left
as it was, and the response is the one the same request gets for an id no
task has (in this or any other store, at this or any other time). -/
theorem updateTaskStatus_not_owned (s s0 : Store) (user : AuthUser) (now now0 : Nat)
    (id id0 : String) (hrole : user.role = "worker")
    (_hexists : ∃ t ∈ s.tasks, t.id = id)
    (hother : ∀ t ∈ s.tasks, t.id = id → t.assigned_to ≠ user.id)
    (hmissing : ∀ t ∈ s0.tasks, t.id ≠ id0) :
    updateTaskStatus s user now id "completed" =
      (s, Response.fail 404 "Task not found or unauthorized") ∧
    (updateTaskStatus s user now id "completed").2 =
      (updateTaskStatus s0 user now0 id0 "completed").2 := by
  have key : ∀ (st : Store) (n : Nat) (i : String),
      (∀ t ∈ st.tasks, updateMatches user i t = false) →
      updateTaskStatus st user n i "completed" =
        (st, Response.fail 404 "Task not found or unauthorized") := by
    intro st n i hno
    unfold updateTaskStatus
    dsimp only
    have h1 : ¬ ("completed" ∉ allowedStatuses) := by decide
    have h2 : ¬ (user.role = "worker" ∧ ("completed" : String) ≠ "completed") := by simp
    have h3 : ¬ (("completed" : String) = "approved" ∧ user.role ≠ "admin") := by
      intro h; exact absurd h.1 (by decide)
    rw [if_neg h1, if_neg h2, if_neg h3, if_pos ((changes_eq_zero_iff st user i).2 hno)]
  have hs : ∀ t ∈ s.tasks, updateMatches user id t = false := by
    intro t ht
    by_cases hid : t.id = id
    · simp [updateMatches, hid, hrole, hother t ht hid]
    · simp [updateMatches, hid]
  have hs0 : ∀ t ∈ s0.tasks, updateMatches user id0 t = false := by
    intro t ht
    simp [updateMatches, hmissing t ht]
  rw [key s now id hs, key s0 now0 id0 hs0]
  exact ⟨rfl, rfl⟩

/-- C2 at the example store: `worker2` on the task of `worker1`, compared with
an id that no task has. -/
theorem updateTaskStatus_not_owned_witness :
    updateTaskStatus storeA worker2 5000 "task_1000" "completed" =
      (storeA, Response.fail 404 "Task not found or unauthorized") ∧
    (updateTaskStatus storeA worker2 5000 "task_1000" "completed").2 =
      (updateTaskStatus storeA worker2 5000 "task_7" "completed").2 :=
  updateTaskStatus_not_owned storeA storeA worker2 5000 5000 "task_1000" "task_7"
    (by decide) (by decide) (by decide) (by decide)

/-! ### How each handler changes the tasks table -/

/-- The `SET` clause keeps every column other than the status and the two
timestamps. -/
theorem setStatus_id (status : String) (now : Nat) (t : Task) :
    (setStatus status now t).id = t.id := by
  unfold setStatus; split_ifs <;> rfl

/-- The `SET` clause keeps `created_at`. -/
theorem setStatus_created_at (status : String) (now : Nat) (t : Task) :
    (setStatus status now t).created_at = t.created_at := by
  unfold setStatus; split_ifs <;> rfl

/-- The `UPDATE` keeps the ids of the rows, in order. -/
theorem updateRows_ids (s : Store) (user : AuthUser) (now : Nat) (id status : String) :
    (updateRows s user now id status).tasks.map Task.id = s.tasks.map Task.id := by
  unfold updateRows
  simp only [List.map_map]
  apply List.map_congr_left
  intro t _
  simp only [Function.comp]
  split_ifs
  · exact setStatus_id status now t
  · rfl

/-- The tasks table after `POST /api/tasks`: unchanged, or extended by one
pending row with a fresh id, no completed or approved time, created at the
clock reading of the request. -/
theorem createTask_tasks (s : Store) (user : AuthUser) (now : Nat)
    (title description link assignedTo : Option String) :
    ((createTask s user now title description link assignedTo).2.isJson = false ∧
      (createTask s user now title description link assignedTo).1 = s) ∨
    ∃ row : Task, (∀ t ∈ s.tasks, t.id ≠ row.id) ∧ row.status = "pending" ∧
      row.completed_at = none ∧ row.approved_at = none ∧
      row.created_at = currentTimestamp now ∧
      (createTask s user now title description link assignedTo).1 =
        { s with tasks := s.tasks ++ [row] } := by
  unfold createTask
  dsimp only
  by_cases h1 : user.role ≠ "admin"
  · rw [if_pos h1]; exact Or.inl ⟨rfl, rfl⟩
  · rw [if_neg h1]
    by_cases h2 : (!truthy title || !truthy link || !truthy assignedTo) = true
    · rw [if_pos h2]; exact Or.inl ⟨rfl, rfl⟩
    · rw [if_neg h2]
      by_cases h3 : (s.tasks.any fun t => decide (t.id = "task_" ++ toString now)) = true
      · rw [if_pos h3]; exact Or.inl ⟨rfl, rfl⟩
      · rw [if_neg h3]
        refine Or.inr ⟨_, ?_, rfl, rfl, rfl, rfl, rfl⟩
        intro t ht hid
        apply h3
        rw [List.any_eq_true]
        exact ⟨t, ht, by simpa using hid⟩

/-- The handler of `POST /api/tasks/:id/errors` never touches the tasks. -/
theorem addError_tasks (s : Store) (user : AuthUser) (now : Nat) (taskId : String)
    (description : Option String) :
    (addError s user now taskId description).1.tasks = s.tasks := by
  unfold addError
  dsimp only
  split_ifs <;> rfl

/-- The tasks table after a status update: unchanged, or the `UPDATE`. -/
theorem updateTaskStatus_fst (s : Store) (user : AuthUser) (now : Nat) (id status : String) :
    ((updateTaskStatus s user now id status).2.isJson = false ∧
      (updateTaskStatus s user now id status).1 = s) ∨
    ((updateTaskStatus s user now id status).2.isJson = true ∧
      (updateTaskStatus s user now id status).1 = updateRows s user now id status) := by
  cases h : (updateTaskStatus s user now id status).2.isJson
  · exact Or.inl ⟨rfl, updateTaskStatus_fst_of_not_isJson s user now id status h⟩
  · refine Or.inr ⟨rfl, ?_⟩
    rw [updateTaskStatus_eq_of_isJson s user now id status h]

/-- Handling one more request after a history. -/
theorem run_append_singleton (s : Store) (reqs : List Request) (r : Request) :
    run s (reqs ++ [r]) = step (run s reqs) r := by
  simp [run, List.foldl_append]

/-- One request keeps the task ids distinct. -/
theorem step_nodup (s : Store) (r : Request) (h : (s.tasks.map Task.id).Nodup) :
    ((step s r).tasks.map Task.id).Nodup := by
  unfold step
  cases hc : r.call with
  | createTask title description link assignedTo =>
    dsimp only
    rcases createTask_tasks s r.user r.now title description link assignedTo with
      ⟨_, he⟩ | ⟨row, hfresh, _, _, _, _, he⟩
    · rw [he]; exact h
    · rw [he]
      simp only [List.map_append, List.map_cons, List.map_nil]
      rw [List.nodup_append]
      refine ⟨h, List.nodup_singleton _, ?_⟩
      intro a ha hb
      rw [List.mem_singleton] at hb
      rw [List.mem_map] at ha
      obtain ⟨t, ht, hta⟩ := ha
      exact hfresh t ht (hta.trans hb)
  | updateTaskStatus id status =>
    dsimp only
    rcases updateTaskStatus_fst s r.user r.now id status with ⟨_, he⟩ | ⟨_, he⟩
    · rw [he]; exact h
    · rw [he, updateRows_ids]; exact h
  | addError taskId description =>
    dsimp only
    rw [addError_tasks]; exact h

/-- A history keeps the task ids distinct. -/
theorem run_nodup (s : Store) (reqs : List Request) (h : (s.tasks.map Task.id).Nodup) :
    ((run s reqs).tasks.map Task.id).Nodup := by
  induction reqs using List.reverseRecOn with
  | nil => exact h
  | append_singleton rs r ih => rw [run_append_singleton]; exact step_nodup _ r ih

/-- One request handled no later than `now` keeps every `created_at` at or
before `now`. -/
theorem step_created_le (s : Store) (r : Request) (now : Nat) (hr : r.now ≤ now)
    (h : ∀ t ∈ s.tasks, t.created_at ≤ now) :
    ∀ t ∈ (step s r).tasks, t.created_at ≤ now := by
  unfold step
  cases hc : r.call with
  | createTask title description link assignedTo =>
    dsimp only
    rcases createTask_tasks s r.user r.now title description link assignedTo with
      ⟨_, he⟩ | ⟨row, _, _, _, _, hcr, he⟩
    · rw [he]; exact h
    · rw [he]
      intro t ht
      rcases List.mem_append.1 ht with ht | ht
      · exact h t ht
      · rw [List.mem_singleton] at ht
        rw [ht, hcr]
        exact le_trans (Nat.div_mul_le_self _ _) hr
  | updateTaskStatus id status =>
    dsimp only
    rcases updateTaskStatus_fst s r.user r.now id status with ⟨_, he⟩ | ⟨_, he⟩
    · rw [he]; exact h
    · rw [he]
      intro t ht
      unfold updateRows at ht
      rw [List.mem_map] at ht
      obtain ⟨t0, ht0, rfl⟩ := ht
      split_ifs
      · rw [setStatus_created_at]; exact h t0 ht0
      · exact h t0 ht0
  | addError taskId description =>
    dsimp only
    rw [addError_tasks]; exact h

/-- A history whose requests are all handled no later than `now` keeps every
`created_at` at or before `now`. -/
theorem run_created_le (s : Store) (reqs : List Request) (now : Nat)
    (hr : ∀ r ∈ reqs, r.now ≤ now) (h : ∀ t ∈ s.tasks, t.created_at ≤ now) :
    ∀ t ∈ (run s reqs).tasks, t.created_at ≤ now := by
  induction reqs using List.reverseRecOn with
  | nil => exact h
  | append_singleton rs r ih =>
    rw [run_append_singleton]
    exact step_created_le _ r now (hr r (by simp))
      (ih fun r0 h0 => hr r0 (List.mem_append_left _ h0))

/-- With distinct ids, the `UPDATE` that matches the row `old` rewrites
exactly the rows with the requested id, and each of them is `old`. -/
theorem updateRows_tasks_of_nodup (s : Store) (user : AuthUser) (now : Nat)
    (id status : String) (old : Task) (hpk : (s.tasks.map Task.id).Nodup)
    (hold : old ∈ s.tasks) (hm : updateMatches user id old = true) :
    (updateRows s user now id status).tasks =
      s.tasks.map fun t => if t.id = id then setStatus status now old else t := by
  have hid : old.id = id := by
    simp only [updateMatches, Bool.and_eq_true, decide_eq_true_eq] at hm
    exact hm.1
  unfold updateRows
  apply List.map_congr_left
  intro t ht
  by_cases hti : t.id = id
  · have hto : t = old :=
      List.inj_on_of_nodup_map hpk ht hold (hti.trans hid.symm)
    rw [if_pos hti, hto, if_pos hm]
  · have hnm : ¬ (updateMatches user id t = true) := by
      simp [updateMatches, hti]
    rw [if_neg hti, if_neg hnm]

/-- The row read back after rewriting the rows with the requested id. -/
theorem find_after_update (tasks : List Task) (id : String) (old new : Task)
    (hold : old ∈ tasks) (hid : old.id = id) (hnew : new.id = id) :
    (tasks.map fun t => if t.id = id then new else t).find? (fun t => decide (t.id = id)) =
      some new := by
  induction tasks with
  | nil => cases hold
  | cons a as ih =>
    by_cases ha : a.id = id
    · simp [List.find?, ha, hnew]
    · have hmem : old ∈ as := by
        rcases List.mem_cons.1 hold with h | h
        · rw [h] at hid; exact absurd hid ha
        · exact h
      rw [List.map_cons, if_neg ha, List.find?_cons_of_neg _ (by simpa using ha)]
      exact ih hmem

/-- C4: a successful status update at clock reading `now`, in a store reached
by any history handled no later than `now` from a store with distinct task ids
and no task created after `now`: the task with the requested id gets the
requested status; for completed its completed time is `now` (so it is set)
and is not before its created time; for approved its approved time is `now`;
a timestamp this request does not stamp keeps its value; the other columns of
the task, every other task, every error report and every user are unchanged.
The body of the response is the task after the update. -/
theorem updateTaskStatus_effect (s0 : Store) (reqs : List Request) (user : AuthUser)
    (now : Nat) (id status : String) (s' : Store) (body : Option Task)
    (hpk : (s0.tasks.map Task.id).Nodup)
    (hpast : ∀ t ∈ s0.tasks, t.created_at ≤ now)
    (hclock : ∀ r ∈ reqs, r.now ≤ now)
    (h : updateTaskStatus (run s0 reqs) user now id status = (s', Response.json body)) :
    ∃ old new : Task, old ∈ (run s0 reqs).tasks ∧ old.id = id ∧ body = some new ∧
      new.status = status ∧
      (status = "completed" → new.completed_at = some now ∧ new.created_at ≤ now) ∧
      (status = "approved" → new.approved_at = some now) ∧
      (status ≠ "completed" → new.completed_at = old.completed_at) ∧
      (status ≠ "approved" → new.approved_at = old.approved_at) ∧
      new.id = old.id ∧ new.title = old.title ∧ new.description = old.description ∧
      new.link = old.link ∧ new.assigned_to = old.assigned_to ∧
      new.created_by = old.created_by ∧ new.created_at = old.created_at ∧
      s'.tasks = (run s0 reqs).tasks.map (fun t => if t.id = id then new else t) ∧
      s'.errors = (run s0 reqs).errors ∧ s'.users = (run s0 reqs).users := by
  have hjson : (updateTaskStatus (run s0 reqs) user now id status).2.isJson = true := by
    rw [h]; rfl
  have heq := updateTaskStatus_eq_of_isJson (run s0 reqs) user now id status hjson
  rw [h] at heq
  obtain ⟨_, _, _, old, hold, hm⟩ :=
    (updateTaskStatus_isJson_iff (run s0 reqs) user now id status).1 hjson
  have hid : old.id = id := by
    simp only [updateMatches, Bool.and_eq_true, decide_eq_true_eq] at hm
    exact hm.1
  have hnodup := run_nodup s0 reqs hpk
  have hle := run_created_le s0 reqs now hclock hpast old hold
  have htasks := updateRows_tasks_of_nodup (run s0 reqs) user now id status old hnodup hold hm
  have hs' : s' = updateRows (run s0 reqs) user now id status := congrArg Prod.fst heq
  have hbody : Response.json body =
      Response.json ((updateRows (run s0 reqs) user now id status).tasks.find?
        fun t => decide (t.id = id)) := congrArg Prod.snd heq
  have hbody' : body = some (setStatus status now old) := by
    injection hbody with hb
    rw [hb, htasks]
    exact find_after_update _ id old _ hold hid ((setStatus_id status now old).trans hid)
  refine ⟨old, setStatus status now old, hold, hid, hbody', ?_, ?_, ?_, ?_, ?_, ?_, ?_, ?_,
    ?_, ?_, ?_, ?_, ?_, ?_, ?_⟩
  · unfold setStatus; split_ifs <;> rfl
  · intro hc
    refine ⟨?_, ?_⟩
    · unfold setStatus; rw [if_pos hc]
    · rw [setStatus_created_at]; exact hle
  · intro ha
    have hnc : status ≠ "completed" := by rw [ha]; decide
    unfold setStatus; rw [if_neg hnc, if_pos ha]
  · intro hnc
    unfold setStatus; rw [if_neg hnc]; split_ifs <;> rfl
  · intro hna
    unfold setStatus; split_ifs <;> rfl
  · exact setStatus_id status now old
  · unfold setStatus; split_ifs <;> rfl
  · unfold setStatus; split_ifs <;> rfl
  · unfold setStatus; split_ifs <;> rfl
  · unfold setStatus; split_ifs <;> rfl
  · unfold setStatus; split_ifs <;> rfl
  · exact setStatus_created_at status now old
  · rw [hs', htasks]
  · rw [hs']; rfl
  · rw [hs']; rfl

/-- C4 at scenario B: `worker1` completes the task of scenario A at clock
reading `5000`. -/
theorem updateTaskStatus_effect_witness :
    ∃ old new : Task, old ∈ (run emptyStore historyA).tasks ∧ old.id = "task_1000" ∧
      some { taskA with status := "completed", completed_at := some 5000 } = some new ∧
      new.status = "completed" ∧
      (("completed" : String) = "completed" →
        new.completed_at = some 5000 ∧ new.created_at ≤ 5000) ∧
      (("completed" : String) = "approved" → new.approved_at = some 5000) ∧
      (("completed" : String) ≠ "completed" → new.completed_at = old.completed_at) ∧
      (("completed" : String) ≠ "approved" → new.approved_at = old.approved_at) ∧
      new.id = old.id ∧ new.title = old.title ∧ new.description = old.description ∧
      new.link = old.link ∧ new.assigned_to = old.assigned_to ∧
      new.created_by = old.created_by ∧ new.created_at = old.created_at ∧
      (updateTaskStatus (run emptyStore historyA) worker1 5000 "task_1000" "completed").1.tasks =
        (run emptyStore historyA).tasks.map (fun t => if t.id = "task_1000" then new else t) ∧
      (updateTaskStatus (run emptyStore historyA) worker1 5000 "task_1000" "completed").1.errors =
        (run emptyStore historyA).errors ∧
      (updateTaskStatus (run emptyStore historyA) worker1 5000 "task_1000" "completed").1.users =
        (run emptyStore historyA).users :=
  updateTaskStatus_effect emptyStore historyA worker1 5000 "task_1000" "completed"
    (updateTaskStatus (run emptyStore historyA) worker1 5000 "task_1000" "completed").1
    (some { taskA with status := "completed", completed_at := some 5000 })
    (by decide) (by decide) (by decide) (by decide)

/-! ### The assignee filter of the list routes -/

/-- The ordered selection has the same rows as the plain selection. -/
theorem mem_selectTasksOrdered (s : Store) (user : AuthUser) (worker : Option String)
    (t : Task) : t ∈ selectTasksOrdered s user worker ↔ t ∈ selectTasks s user worker :=
  (List.perm_insertionSort _ _).mem_iff

/-- Membership in the selection, for a requester whose role is `worker`. -/
theorem mem_selectTasks_worker (s : Store) (user : AuthUser) (worker : Option String)
    (t : Task) (hrole : user.role = "worker") :
    t ∈ selectTasks s user worker ↔
      t ∈ s.tasks ∧ t.assigned_to = user.id ∧
        (truthy worker = true ∧ worker ≠ some "all" → worker = some user.id) := by
  unfold selectTasks assigneeClause
  rw [List.mem_filter]
  simp only [hrole, if_true, Bool.and_eq_true, decide_eq_true_eq]
  constructor
  · rintro ⟨ht, h1, h2⟩
    refine ⟨ht, h2, fun hw => ?_⟩
    rw [if_pos hw] at h1
    rw [← h2]
    exact (of_decide_eq_true h1).symm
  · rintro ⟨ht, h2, h3⟩
    refine ⟨ht, ?_, h2⟩
    by_cases hw : truthy worker = true ∧ worker ≠ some "all"
    · rw [if_pos hw, h3 hw, h2]
      exact decide_eq_true rfl
    · rw [if_neg hw]

/-- C3 as stated fails: for `worker1` asking for the tasks of `worker2`, the
candidate set of both list routes is empty although a task is assigned to
`worker1`, so the candidate set is not always the requester's tasks. -/
theorem candidates_not_always_own_tasks :
    ¬ ∀ (s : Store) (user : AuthUser) (worker : Option String) (t : Task),
        user.role = "worker" →
        ((t ∈ selectTasksOrdered s user worker ↔ t ∈ s.tasks ∧ t.assigned_to = user.id) ∧
         (t ∈ selectTasks s user worker ↔ t ∈ s.tasks ∧ t.assigned_to = user.id)) := by
  intro h
  have h1 := (h storeA worker1 (some "worker2") taskA (by decide)).1
  have h2 : taskA ∈ storeA.tasks ∧ taskA.assigned_to = worker1.id := by decide
  have h3 : selectTasksOrdered storeA worker1 (some "worker2") = [] := by decide
  have h4 := h1.2 h2
  rw [h3] at h4
  cases h4

/-- C3 amended: for a requester whose role is `worker`, the candidate set of
`GET /api/tasks` and of `GET /api/stats` holds only tasks assigned to the
requester; it is exactly the requester's tasks when the requested assignee is
absent, empty, `all` or the requester's own id, and it is empty when the
requested assignee is another id. -/
theorem candidates_worker (s : Store) (user : AuthUser) (worker : Option String)
    (hrole : user.role = "worker") :
    (∀ t, t ∈ selectTasksOrdered s user worker → t ∈ s.tasks ∧ t.assigned_to = user.id) ∧
    (∀ t, t ∈ selectTasks s user worker → t ∈ s.tasks ∧ t.assigned_to = user.id) ∧
    ((truthy worker = false ∨ worker = some "all" ∨ worker = some user.id) →
      ∀ t, (t ∈ selectTasksOrdered s user worker ↔ t ∈ s.tasks ∧ t.assigned_to = user.id) ∧
        (t ∈ selectTasks s user worker ↔ t ∈ s.tasks ∧ t.assigned_to = user.id)) ∧
    ((truthy worker = true ∧ worker ≠ some "all" ∧ worker ≠ some user.id) →
      selectTasksOrdered s user worker = [] ∧ selectTasks s user worker = []) := by
  have hmem := fun t => mem_selectTasks_worker s user worker t hrole
  have hord := fun t => mem_selectTasksOrdered s user worker t
  refine ⟨fun t ht => ?_, fun t ht => ?_, fun hw t => ?_, fun hw => ?_⟩
  · have := (hmem t).1 ((hord t).1 ht)
    exact ⟨this.1, this.2.1⟩
  · have := (hmem t).1 ht
    exact ⟨this.1, this.2.1⟩
  · have hfil : truthy worker = true ∧ worker ≠ some "all" → worker = some user.id := by
      rintro ⟨h1, h2⟩
      rcases hw with h | h | h
      · rw [h] at h1; cases h1
      · exact absurd h h2
      · exact h
    constructor
    · rw [hord, hmem]
      exact ⟨fun h => ⟨h.1, h.2.1⟩, fun h => ⟨h.1, h.2, hfil⟩⟩
    · rw [hmem]
      exact ⟨fun h => ⟨h.1, h.2.1⟩, fun h => ⟨h.1, h.2, hfil⟩⟩
  · have hnone : ∀ t, t ∉ selectTasks s user worker := by
      intro t ht
      exact hw.2.2 (((hmem t).1 ht).2.2 ⟨hw.1, hw.2.1⟩)
    have h2 : selectTasks s user worker = [] := List.eq_nil_iff_forall_not_mem.2 hnone
    refine ⟨?_, h2⟩
    unfold selectTasksOrdered
    rw [h2]
    rfl

/-- C3 amended, at the example store: `worker1` asking for the tasks of
`worker2` gets no candidate. -/
theorem candidates_worker_witness :
    worker1.role = "worker" ∧
    selectTasksOrdered storeA worker1 (some "worker2") = [] ∧
    selectTasks storeA worker1 (some "worker2") = [] :=
  ⟨by decide,
    (candidates_worker storeA worker1 (some "worker2") (by decide)).2.2.2 (by decide)⟩

/-! ### Roles other than `admin` and `worker` -/

/-- C10 fails on the code: a user registered with the role string `manager`
is not an admin, yet moves the task assigned to `worker1` to completed and
then back to pending, and `GET /api/tasks` returns that task to them. -/
theorem manager_role_unrestricted :
    (∃ u ∈ storeManager.users, tokenClaims u = manager) ∧
    manager.role ≠ "admin" ∧
    (∀ t ∈ storeManager.tasks, t.assigned_to ≠ manager.id) ∧
    updateTaskStatus storeManager manager 5000 "task_1000" "completed" =
      ({ storeManager with
          tasks := [{ taskA with status := "completed", completed_at := some 5000 }] },
        Response.json (some { taskA with status := "completed", completed_at := some 5000 })) ∧
    (updateTaskStatus
        (updateTaskStatus storeManager manager 5000 "task_1000" "completed").1
        manager 6000 "task_1000" "pending").2 =
      Response.json (some { taskA with status := "pending", completed_at := some 5000 }) ∧
    listTasks refRuntime storeManager manager noQuery =
      Response.json [{ task := taskA, errors := [] }] := by
  refine ⟨by decide, by decide, by decide, by decide, by decide, by decide⟩

/-! ### Timestamps along a history -/

/-- The log after one more request. -/
theorem outcomes_append_singleton (s : Store) (reqs : List Request) (r : Request) :
    outcomes s (reqs ++ [r]) = outcomes s reqs ++ [(r, succeeds (run s reqs) r)] := by
  induction reqs generalizing s with
  | nil => rfl
  | cons a as ih =>
    show (a, succeeds s a) :: outcomes (step s a) (as ++ [r]) =
      (a, succeeds s a) :: (outcomes (step s a) as ++ [(r, succeeds (run (step s a) as) r)])
    rw [ih (step s a)]

/-- Successful updates in a log extended by one entry. -/
theorem updated_append (log : List (Request × Bool)) (r : Request) (b : Bool)
    (id status : String) :
    updated (log ++ [(r, b)]) id status ↔
      updated log id status ∨ (b = true ∧ r.call = Call.updateTaskStatus id status) := by
  unfold updated
  constructor
  · rintro ⟨e, he, h1, h2⟩
    rcases List.mem_append.1 he with he | he
    · exact Or.inl ⟨e, he, h1, h2⟩
    · rw [List.mem_singleton] at he
      subst he
      exact Or.inr ⟨h1, h2⟩
  · rintro (⟨e, he, h1, h2⟩ | ⟨h1, h2⟩)
    · exact ⟨e, List.mem_append_left _ he, h1, h2⟩
    · exact ⟨(r, b), List.mem_append_right _ (List.mem_singleton.2 rfl), h1, h2⟩

/-- An entry that is not a successful status update keeps the invariant when
the tasks table is unchanged. -/
theorem HistoryInv.same {tasks : List Task} {log : List (Request × Bool)}
    (h : HistoryInv tasks log) (r : Request) (b : Bool)
    (hnot : ∀ id status, ¬ (b = true ∧ r.call = Call.updateTaskStatus id status)) :
    HistoryInv tasks (log ++ [(r, b)]) := by
  have hup : ∀ id status, updated (log ++ [(r, b)]) id status ↔ updated log id status := by
    intro id status
    rw [updated_append]
    exact ⟨fun h => h.resolve_right (hnot id status), Or.inl⟩
  obtain ⟨h1, h2, h3⟩ := h
  refine ⟨h1, fun id status hu => h2 id status ((hup id status).1 hu), fun t ht => ?_⟩
  rw [hup, hup]
  exact h3 t ht

/-- Inserting a pending row with a fresh id and no timestamps keeps the
invariant. -/
theorem HistoryInv.insert {tasks : List Task} {log : List (Request × Bool)}
    (h : HistoryInv tasks log) (r : Request) (b : Bool) (row : Task)
    (hnot : ∀ id status, ¬ (b = true ∧ r.call = Call.updateTaskStatus id status))
    (hfresh : ∀ t ∈ tasks, t.id ≠ row.id) (hstatus : row.status = "pending")
    (hc : row.completed_at = none) (ha : row.approved_at = none) :
    HistoryInv (tasks ++ [row]) (log ++ [(r, b)]) := by
  obtain ⟨h1, h2, h3⟩ := h.same r b hnot
  refine ⟨?_, ?_, ?_⟩
  · simp only [List.map_append, List.map_cons, List.map_nil]
    rw [List.nodup_append]
    refine ⟨h1, List.nodup_singleton _, ?_⟩
    intro a ha1 hb
    rw [List.mem_singleton] at hb
    rw [List.mem_map] at ha1
    obtain ⟨t, ht, hta⟩ := ha1
    exact hfresh t ht (hta.trans hb)
  · intro id status hu
    obtain ⟨t, ht, hid⟩ := h2 id status hu
    exact ⟨t, List.mem_append_left _ ht, hid⟩
  · intro t ht
    rcases List.mem_append.1 ht with ht | ht
    · exact h3 t ht
    · rw [List.mem_singleton] at ht
      subst ht
      have hno : ∀ status, ¬ updated (log ++ [(r, b)]) t.id status := by
        intro status hu
        obtain ⟨t0, ht0, hid⟩ := h2 t.id status hu
        exact hfresh t0 ht0 hid
      refine ⟨⟨fun hne => absurd hc hne, fun hu => absurd hu (hno _)⟩,
        fun hne => absurd ha hne, fun hs => ?_, fun hs => ?_⟩
      · rw [hstatus] at hs; exact absurd hs (by decide)
      · rw [hstatus] at hs; exact absurd hs (by decide)

/-- A successful status update keeps the invariant. -/
theorem HistoryInv.update {tasks : List Task} {log : List (Request × Bool)}
    (h : HistoryInv tasks log) (r : Request) (id status : String)
    (hcall : r.call = Call.updateTaskStatus id status)
    (hmatch : ∃ t ∈ tasks, updateMatches r.user id t = true) :
    HistoryInv
      (tasks.map fun t => if updateMatches r.user id t then setStatus status r.now t else t)
      (log ++ [(r, true)]) := by
  obtain ⟨h1, h2, h3⟩ := h
  obtain ⟨t2, ht2, hm2⟩ := hmatch
  have hid_of : ∀ t, updateMatches r.user id t = true → t.id = id := by
    intro t hm
    simp only [updateMatches, Bool.and_eq_true, decide_eq_true_eq] at hm
    exact hm.1
  have hids : (tasks.map fun t =>
      if updateMatches r.user id t then setStatus status r.now t else t).map Task.id =
      tasks.map Task.id := by
    simp only [List.map_map]
    apply List.map_congr_left
    intro t _
    simp only [Function.comp]
    split_ifs
    · exact setStatus_id status r.now t
    · rfl
  refine ⟨by rw [hids]; exact h1, ?_, ?_⟩
  · intro id' status' hu
    have hex : ∃ t ∈ tasks, t.id = id' := by
      rcases (updated_append log r true id' status').1 hu with hu | ⟨_, hc⟩
      · exact h2 id' status' hu
      · rw [hcall] at hc
        injection hc with hi _
        exact ⟨t2, ht2, (hid_of t2 hm2).trans hi⟩
    obtain ⟨t, ht, hid⟩ := hex
    refine ⟨_, List.mem_map.2 ⟨t, ht, rfl⟩, ?_⟩
    split_ifs
    · rw [setStatus_id]; exact hid
    · exact hid
  · intro t' ht'
    obtain ⟨t, ht, rfl⟩ := List.mem_map.1 ht'
    obtain ⟨i1, i2, i3, i4⟩ := h3 t ht
    by_cases hm : updateMatches r.user id t = true
    · rw [if_pos hm]
      have hid := hid_of t hm
      have hnew : ∀ st, updated (log ++ [(r, true)]) t.id st ↔
          updated log t.id st ∨ status = st := by
        intro st
        rw [updated_append, hcall, hid]
        constructor
        · rintro (h | ⟨_, hc⟩)
          · exact Or.inl h
          · injection hc with _ hs
            exact Or.inr hs
        · rintro (h | h)
          · exact Or.inl h
          · exact Or.inr ⟨rfl, by rw [h]⟩
      rw [setStatus_id, hnew, hnew]
      unfold setStatus
      by_cases hc : status = "completed"
      · have hna : status ≠ "approved" := by rw [hc]; decide
        rw [if_pos hc]
        refine ⟨⟨fun _ => Or.inr hc, fun _ => by simp⟩, fun hne => Or.inl (i2 hne),
          fun _ => by simp, fun hs => absurd ((show status = "approved" from hs)) hna⟩
      · rw [if_neg hc]
        by_cases ha : status = "approved"
        · rw [if_pos ha]
          refine ⟨⟨fun hne => Or.inl (i1.1 hne), fun hu => ?_⟩, fun _ => Or.inr ha,
            fun hs => absurd (show status = "completed" from hs) hc, fun _ => by simp⟩
          rcases hu with hu | hu
          · exact i1.2 hu
          · exact absurd hu hc
        · rw [if_neg ha]
          refine ⟨⟨fun hne => Or.inl (i1.1 hne), fun hu => ?_⟩, fun hne => Or.inl (i2 hne),
            fun hs => absurd (show status = "completed" from hs) hc,
            fun hs => absurd (show status = "approved" from hs) ha⟩
          rcases hu with hu | hu
          · exact i1.2 hu
          · exact absurd hu hc
    · rw [if_neg hm]
      have hne : t.id ≠ id := by
        intro hid
        have : t = t2 := List.inj_on_of_nodup_map h1 ht ht2 (hid.trans (hid_of t2 hm2).symm)
        rw [this] at hm
        exact hm hm2
      have hold : ∀ st, updated (log ++ [(r, true)]) t.id st ↔ updated log t.id st := by
        intro st
        rw [updated_append, hcall]
        constructor
        · rintro (h | ⟨_, hc⟩)
          · exact h
          · injection hc with hi _
            exact absurd hi.symm hne
        · exact Or.inl
      rw [hold, hold]
      exact ⟨i1, i2, i3, i4⟩

/-- Every history from a store with no task maintains the invariant. -/
theorem run_historyInv (s0 : Store) (hs0 : s0.tasks = []) (reqs : List Request) :
    HistoryInv (run s0 reqs).tasks (outcomes s0 reqs) := by
  induction reqs using List.reverseRecOn with
  | nil =>
    show HistoryInv s0.tasks []
    rw [hs0]
    refine ⟨List.nodup_nil, ?_, ?_⟩
    · rintro id status ⟨e, he, _⟩
      cases he
    · intro t ht
      cases ht
  | append_singleton rs r ih =>
    rw [run_append_singleton, outcomes_append_singleton]
    cases hc : r.call with
    | createTask title description link assignedTo =>
      have hnot : ∀ (b : Bool) (id status : String),
          ¬ (b = true ∧ r.call = Call.updateTaskStatus id status) := by
        rintro b id status ⟨_, h⟩
        rw [hc] at h
        cases h
      simp only [step, succeeds, hc]
      rcases createTask_tasks (run s0 rs) r.user r.now title description link assignedTo with
        ⟨_, he⟩ | ⟨row, hfresh, hst, hco, hap, _, he⟩
      · rw [he]
        exact ih.same r _ (hnot _)
      · rw [he]
        exact ih.insert r _ row (hnot _) hfresh hst hco hap
    | updateTaskStatus id status =>
      simp only [step, succeeds, hc]
      rcases updateTaskStatus_fst (run s0 rs) r.user r.now id status with ⟨hj, he⟩ | ⟨hj, he⟩
      · rw [he, hj]
        refine ih.same r false ?_
        rintro _ _ ⟨h, _⟩
        cases h
      · rw [he, hj]
        obtain ⟨_, _, _, hm⟩ :=
          (updateTaskStatus_isJson_iff (run s0 rs) r.user r.now id status).1 hj
        exact ih.update r id status hc hm
    | addError taskId description =>
      have hnot : ∀ (b : Bool) (id status : String),
          ¬ (b = true ∧ r.call = Call.updateTaskStatus id status) := by
        rintro b id status ⟨_, h⟩
        rw [hc] at h
        cases h
      simp only [step, succeeds, hc]
      rw [addError_tasks]
      exact ih.same r _ (hnot _)

/-- C5: in every store reached from a store with an empty tasks table by any
sequence of create-task, update-status and add-error requests (any
requesters, any clock readings), every task has its completed time set if and
only if an earlier request was a successful status update of that task to
completed, has its approved time set only if an earlier request was a
successful status update of that task to approved, and has its completed
(approved) time set whenever its status is completed (approved). -/
theorem timestamps_follow_updates (s0 : Store) (reqs : List Request) (t : Task)
    (hs0 : s0.tasks = []) (ht : t ∈ (run s0 reqs).tasks) :
    (t.completed_at ≠ none ↔
      ∃ e ∈ outcomes s0 reqs, e.2 = true ∧ e.1.call = Call.updateTaskStatus t.id "completed") ∧
    (t.approved_at ≠ none →
      ∃ e ∈ outcomes s0 reqs, e.2 = true ∧ e.1.call = Call.updateTaskStatus t.id "approved") ∧
    (t.status = "completed" → t.completed_at ≠ none) ∧
    (t.status = "approved" → t.approved_at ≠ none) :=
  (run_historyInv s0 hs0 reqs).2.2 t ht

/-- C5 at scenario C: the approved task of the example history. -/
theorem timestamps_follow_updates_witness :
    taskC ∈ (run emptyStore historyC).tasks ∧
    ((taskC.completed_at ≠ none ↔
      ∃ e ∈ outcomes emptyStore historyC,
        e.2 = true ∧ e.1.call = Call.updateTaskStatus taskC.id "completed") ∧
    (taskC.approved_at ≠ none →
      ∃ e ∈ outcomes emptyStore historyC,
        e.2 = true ∧ e.1.call = Call.updateTaskStatus taskC.id "approved") ∧
    (taskC.status = "completed" → taskC.completed_at ≠ none) ∧
    (taskC.status = "approved" → taskC.approved_at ≠ none)) :=
  ⟨by decide, timestamps_follow_updates emptyStore historyC taskC rfl (by decide)⟩

/-! ### Error reports -/

/-- The add-error handler answers 200 exactly when the requester is an admin,
the description is non-empty and no report has the id made from the clock
reading. -/
theorem addError_isJson_iff (s : Store) (user : AuthUser) (now : Nat) (taskId : String)
    (description : Option String) :
    (addError s user now taskId description).2.isJson = true ↔
      user.role = "admin" ∧ truthy description = true ∧
      ∀ e ∈ s.errors, e.id ≠ "error_" ++ toString now := by
  unfold addError
  dsimp only
  by_cases h1 : user.role ≠ "admin"
  · rw [if_pos h1]
    simp only [Response.isJson, Bool.false_eq_true, false_iff]
    exact fun h => h1 h.1
  · rw [if_neg h1]
    by_cases h2 : (!truthy description) = true
    · rw [if_pos h2]
      simp only [Response.isJson, Bool.false_eq_true, false_iff]
      intro h
      rw [h.2.1] at h2
      cases h2
    · rw [if_neg h2]
      by_cases h3 : (s.errors.any fun e => decide (e.id = "error_" ++ toString now)) = true
      · rw [if_pos h3]
        simp only [Response.isJson, Bool.false_eq_true, false_iff]
        intro h
        rw [List.any_eq_true] at h3
        obtain ⟨e, he, hid⟩ := h3
        exact h.2.2 e he (of_decide_eq_true hid)
      · rw [if_neg h3]
        simp only [Response.isJson, true_iff]
        refine ⟨not_not.1 h1, by simpa using h2, ?_⟩
        intro e he hid
        apply h3
        rw [List.any_eq_true]
        exact ⟨e, he, decide_eq_true hid⟩

/-- C9 fails on the code: two add-error requests of `admin1` with the same
content handled at the same clock reading: the first is stored, the second is
answered 500 `Database error` and stores nothing, and the list route returns
one report. -/
theorem addError_twice_same_millisecond :
    addError storeA admin1 7000 "task_1000" (some "broken link") =
      ({ storeA with errors :=
          [{ id := "error_7000", task_id := "task_1000", description := "broken link",
             reported_by := "admin1", reported_at := 7000 }] },
        Response.json (some
          { id := "error_7000", task_id := "task_1000", description := "broken link",
            reported_by := "admin1", reported_at := 7000 })) ∧
    addError (addError storeA admin1 7000 "task_1000" (some "broken link")).1 admin1 7000
        "task_1000" (some "broken link") =
      ((addError storeA admin1 7000 "task_1000" (some "broken link")).1,
        Response.fail 500 "Database error") ∧
    listErrorsForTask
        (addError (addError storeA admin1 7000 "task_1000" (some "broken link")).1 admin1 7000
          "task_1000" (some "broken link")).1 "task_1000" =
      Response.json
        [{ id := "error_7000", task_id := "task_1000", description := "broken link",
           reported_by := "admin1", reported_at := 7000 }] := by
  refine ⟨by decide, by decide, by decide⟩

/-! ### The task list -/

/-- The prefix test finds exactly the lists that start with `ys`. -/
theorem startsWithChars_iff (xs ys : List Char) :
    startsWithChars xs ys = true ↔ ∃ post, xs = ys ++ post := by
  induction ys generalizing xs with
  | nil => simp [startsWithChars]
  | cons y ys ih =>
    cases xs with
    | nil => simp [startsWithChars]
    | cons x xs =>
      simp only [startsWithChars, Bool.and_eq_true, decide_eq_true_eq, ih, List.cons_append,
        List.cons.injEq]
      constructor
      · rintro ⟨hxy, post, hp⟩
        exact ⟨post, hxy, hp⟩
      · rintro ⟨post, hxy, hp⟩
        exact ⟨hxy, post, hp⟩

/-- The block test finds exactly the lists that hold `ys` as a block. -/
theorem includesChars_iff (xs ys : List Char) :
    includesChars xs ys = true ↔ ∃ pre post, xs = pre ++ ys ++ post := by
  induction xs with
  | nil =>
    simp only [includesChars, startsWithChars_iff]
    constructor
    · rintro ⟨post, hp⟩
      exact ⟨[], post, by simpa using hp⟩
    · rintro ⟨pre, post, hp⟩
      have h1 := List.append_eq_nil.1 hp.symm
      have h2 := List.append_eq_nil.1 h1.1
      exact ⟨[], by rw [h2.2]; rfl⟩
  | cons x xs ih =>
    simp only [includesChars, Bool.or_eq_true, startsWithChars_iff, ih]
    constructor
    · rintro (⟨post, hp⟩ | ⟨pre, post, hp⟩)
      · exact ⟨[], post, by simpa using hp⟩
      · exact ⟨x :: pre, post, by rw [hp]; simp⟩
    · rintro ⟨pre, post, hp⟩
      cases pre with
      | nil => exact Or.inl ⟨post, by simpa using hp⟩
      | cons p pre =>
        simp only [List.cons_append, List.cons.injEq] at hp
        exact Or.inr ⟨pre, post, hp.2⟩

/-- JavaScript `includes` is the substring test. -/
theorem includes_iff (s sub : String) : includes s sub = true ↔ IsSubstring sub s :=
  includesChars_iff s.data sub.data

/-- The lookup on a non-empty association list. -/
theorem lookupErrors_cons (kv : String × List ErrorReport)
    (rest : List (String × List ErrorReport)) (id : String) :
    lookupErrors (kv :: rest) id = if kv.1 = id then kv.2 else lookupErrors rest id := by
  unfold lookupErrors
  by_cases h : kv.1 = id
  · rw [List.find?_cons_of_pos _ (by simpa using h), if_pos h]
  · rw [List.find?_cons_of_neg _ (by simpa using h), if_neg h]

/-- The lookup of a key that the object does not hold. -/
theorem lookupErrors_of_not_any (acc : List (String × List ErrorReport)) (id : String)
    (h : (acc.any fun kv => decide (kv.1 = id)) = false) : lookupErrors acc id = [] := by
  induction acc with
  | nil => rfl
  | cons kv rest ih =>
    simp only [List.any_cons, Bool.or_eq_false_iff, decide_eq_false_iff_not] at h
    rw [lookupErrors_cons, if_neg h.1]
    exact ih h.2

/-- The lookup after `push` on the array of task `k`. -/
theorem lookupErrors_map_push (acc : List (String × List ErrorReport)) (e : ErrorReport)
    (id : String) :
    lookupErrors (acc.map fun kv => if kv.1 = e.task_id then (kv.1, kv.2 ++ [e]) else kv) id =
      if e.task_id = id ∧ (acc.any fun kv => decide (kv.1 = id)) = true then
        lookupErrors acc id ++ [e]
      else lookupErrors acc id := by
  induction acc with
  | nil => simp [lookupErrors]
  | cons kv rest ih =>
    rw [List.map_cons, lookupErrors_cons, lookupErrors_cons]
    by_cases hid : kv.1 = id
    · have hany : ((kv :: rest).any fun kv => decide (kv.1 = id)) = true := by
        simp [hid]
      by_cases he : e.task_id = id
      · have hke : kv.1 = e.task_id := hid.trans he.symm
        simp only [hke, he, hany, if_true, and_self]
      · have hke : ¬ kv.1 = e.task_id := fun h => he (h.symm.trans hid)
        rw [if_neg hke, if_pos hid, if_pos hid, if_neg (fun h => he h.1)]
    · have h1 : ¬ (if kv.1 = e.task_id then (kv.1, kv.2 ++ [e]) else kv).1 = id := by
        split_ifs <;> exact hid
      have hany : ((kv :: rest).any fun kv => decide (kv.1 = id)) =
          (rest.any fun kv => decide (kv.1 = id)) := by
        simp [hid]
      rw [if_neg h1, ih, hany]
      simp only [hid, if_false]

/-- The lookup after a new key is added. -/
theorem lookupErrors_append_singleton (acc : List (String × List ErrorReport)) (k : String)
    (v : List ErrorReport) (id : String) :
    lookupErrors (acc ++ [(k, v)]) id =
      if (acc.any fun kv => decide (kv.1 = id)) = true then lookupErrors acc id
      else if k = id then v else [] := by
  induction acc with
  | nil =>
    rw [List.nil_append, lookupErrors_cons]
    simp [lookupErrors]
  | cons kv rest ih =>
    rw [List.cons_append, lookupErrors_cons, lookupErrors_cons]
    by_cases hid : kv.1 = id
    · have hany : ((kv :: rest).any fun kv => decide (kv.1 = id)) = true := by
        simp [hid]
      simp only [hid, hany, if_true]
    · have hany : ((kv :: rest).any fun kv => decide (kv.1 = id)) =
          (rest.any fun kv => decide (kv.1 = id)) := by
        simp [hid]
      rw [ih, hany]
      simp only [hid, if_false]

/-- Reading `errorsByTask[id] || []` after one more error is grouped. -/
theorem lookupErrors_step (acc : List (String × List ErrorReport)) (e : ErrorReport)
    (id : String) :
    lookupErrors
        (if acc.any (fun kv => decide (kv.1 = e.task_id)) then
          acc.map fun kv => if kv.1 = e.task_id then (kv.1, kv.2 ++ [e]) else kv
        else acc ++ [(e.task_id, [e])]) id =
      lookupErrors acc id ++ (if e.task_id = id then [e] else []) := by
  by_cases hany : (acc.any fun kv => decide (kv.1 = e.task_id)) = true
  · rw [if_pos hany, lookupErrors_map_push]
    by_cases he : e.task_id = id
    · rw [he] at hany
      rw [if_pos ⟨he, hany⟩, if_pos he]
    · rw [if_neg (fun h => he h.1), if_neg he, List.append_nil]
  · rw [if_neg hany, lookupErrors_append_singleton]
    by_cases hid : (acc.any fun kv => decide (kv.1 = id)) = true
    · have he : ¬ e.task_id = id := by
        intro h
        rw [h] at hany
        exact hany hid
      rw [if_pos hid, if_neg he, List.append_nil]
    · rw [if_neg hid, lookupErrors_of_not_any acc id (Bool.eq_false_iff.2 hid),
        List.nil_append]

/-- Reading `errorsByTask[id] || []` gives the grouped errors of that task. -/
theorem lookupErrors_groupErrors (errors : List ErrorReport) (id : String) :
    lookupErrors (groupErrors errors) id = errors.filter fun e => decide (e.task_id = id) := by
  induction errors using List.reverseRecOn with
  | nil => rfl
  | append_singleton es e ih =>
    unfold groupErrors at ih ⊢
    rw [List.foldl_append, List.foldl_cons, List.foldl_nil, lookupErrors_step, ih,
      List.filter_append]
    by_cases h : e.task_id = id
    · simp [h]
    · simp [h]

/-- The date filter of the code says what the specification says. -/
theorem dateMatches_iff (rt : Runtime) (month year : Option QueryValue) (created_at : Nat) :
    dateMatches rt month year created_at = true ↔
      (queryTruthy month = false ∨
        rt.parseInt (queryText month) = some (rt.getMonth created_at)) ∧
      (queryTruthy year = false ∨
        rt.parseInt (queryText year) = some (rt.getFullYear created_at)) := by
  unfold dateMatches
  simp only [Bool.and_eq_true, Bool.or_eq_true, Bool.not_eq_true', decide_eq_true_eq]
  constructor
  · rintro ⟨h1, h2⟩
    exact ⟨h1.imp_right Eq.symm, h2.imp_right Eq.symm⟩
  · rintro ⟨h1, h2⟩
    exact ⟨h1.imp_right Eq.symm, h2.imp_right Eq.symm⟩

/-- The search filter of the code says what the specification says. -/
theorem searchMatches_iff (rt : Runtime) (search : String) (t : Task) :
    searchMatches rt search t = true ↔
      (IsSubstring (rt.toLowerCase search) (rt.toLowerCase t.title) ∨
        ∃ d, t.description = some d ∧ d ≠ "" ∧
          IsSubstring (rt.toLowerCase search) (rt.toLowerCase d)) := by
  unfold searchMatches
  simp only [Bool.or_eq_true, Bool.and_eq_true, includes_iff]
  apply or_congr Iff.rfl
  cases hd : t.description with
  | none => simp [truthy]
  | some d => simp [truthy]

/-- The two in-memory filters of the code keep a task exactly when the
specification keeps it. -/
theorem codeFilter_iff (rt : Runtime) (q : TaskQuery) (t : Task) :
    (dateMatches rt q.month q.year t.created_at &&
      (!queryTruthy q.search || searchMatches rt (queryText q.search) t)) = true ↔
      Kept rt q t := by
  unfold Kept
  rw [Bool.and_eq_true, dateMatches_iff, Bool.or_eq_true, searchMatches_iff, and_assoc]
  simp only [Bool.not_eq_true']

/-- The conditional date filter is the date filter. -/
theorem dateFilter_eq (rt : Runtime) (month year : Option QueryValue)
    (l : List TaskWithErrors) :
    (if (queryTruthy month || queryTruthy year) = true then
        l.filter fun t => dateMatches rt month year t.task.created_at
      else l) = l.filter fun t => dateMatches rt month year t.task.created_at := by
  by_cases h : (queryTruthy month || queryTruthy year) = true
  · rw [if_pos h]
  · rw [if_neg h]
    simp only [Bool.or_eq_true, not_or, Bool.not_eq_true] at h
    symm
    rw [List.filter_eq_self]
    intro t _
    simp [dateMatches, h.1, h.2]

/-- The rows of `GET /api/tasks` come newest first. -/
theorem selectTasksOrdered_sorted (s : Store) (user : AuthUser) (worker : Option String) :
    List.Sorted (fun a b : Task => b.created_at ≤ a.created_at)
      (selectTasksOrdered s user worker) := by
  haveI : IsTotal Task (fun a b : Task => b.created_at ≤ a.created_at) :=
    ⟨fun a b => le_total b.created_at a.created_at⟩
  haveI : IsTrans Task (fun a b : Task => b.created_at ≤ a.created_at) :=
    ⟨fun _ _ _ hab hbc => le_trans hbc hab⟩
  exact List.sorted_insertionSort _ _

/-- Ordering the selection keeps its size. -/
theorem length_selectTasksOrdered (s : Store) (user : AuthUser) (worker : Option String) :
    (selectTasksOrdered s user worker).length = (selectTasks s user worker).length :=
  (List.perm_insertionSort _ _).length_eq

/-- The task list answers 500 when more tasks are selected than the errors
query may have placeholders. -/
theorem listTasks_of_too_many (rt : Runtime) (s : Store) (user : AuthUser) (q : TaskQuery)
    (h : maxVariableNumber < (selectTasksOrdered s user q.worker).length) :
    listTasks rt s user q = Response.fail 500 "Database error" := by
  unfold listTasks
  dsimp only
  have h0 : ¬ ((selectTasksOrdered s user q.worker).map Task.id).length = 0 := by
    rw [List.length_map]
    exact Nat.ne_of_gt (lt_of_le_of_lt (Nat.zero_le _) h)
  have h1 : maxVariableNumber < ((selectTasksOrdered s user q.worker).map Task.id).length := by
    rw [List.length_map]
    exact h
  rw [if_neg h0, if_pos h1]

/-- Attaching `errorsByTask[task.id] || []` attaches the error reports of the
store with the id of the task. -/
theorem attach_eq (s : Store) (tasks : List Task) :
    (tasks.map fun t =>
        ({ task := t,
           errors := lookupErrors
            (groupErrors (s.errors.filter fun e => decide (e.task_id ∈ tasks.map Task.id))) t.id }
          : TaskWithErrors)) =
      tasks.map fun t =>
        { task := t, errors := s.errors.filter fun e => decide (e.task_id = t.id) } := by
  apply List.map_congr_left
  intro t ht
  rw [lookupErrors_groupErrors, List.filter_filter]
  congr 1
  apply List.filter_congr
  intro e _
  by_cases he : e.task_id = t.id
  · have : e.task_id ∈ tasks.map Task.id := by
      rw [he]; exact List.mem_map_of_mem _ ht
    simp only [he, decide_True, Bool.and_true, Bool.true_and, decide_eq_true_eq]
    rw [he] at this
    exact this
  · simp [he]

/-- The task list as one filter over the ordered candidates, each kept task
carrying the error reports of the store with its id, when the errors query has
no more placeholders than a statement may have and `search` is absent or a
string. -/
theorem listTasks_eq (rt : Runtime) (s : Store) (user : AuthUser) (q : TaskQuery)
    (hbound : (selectTasksOrdered s user q.worker).length ≤ maxVariableNumber)
    (hsearch : ∀ text, q.search ≠ some (QueryValue.other text)) :
    listTasks rt s user q =
      Response.json
        (((selectTasksOrdered s user q.worker).filter fun t =>
            dateMatches rt q.month q.year t.created_at &&
              (!queryTruthy q.search || searchMatches rt (queryText q.search) t)).map
          fun t => { task := t, errors := s.errors.filter fun e => decide (e.task_id = t.id) }) := by
  obtain ⟨worker, month, year, search⟩ := q
  dsimp only at hbound hsearch ⊢
  unfold listTasks
  dsimp only
  by_cases h0 : ((selectTasksOrdered s user worker).map Task.id).length = 0
  · rw [if_pos h0]
    have hnil : selectTasksOrdered s user worker = [] := by
      rw [List.length_map] at h0
      exact List.length_eq_zero.1 h0
    rw [hnil]
    rfl
  · have h1 : ¬ maxVariableNumber < ((selectTasksOrdered s user worker).map Task.id).length := by
      rw [List.length_map]
      exact not_lt.2 hbound
    rw [if_neg h0, if_neg h1, dateFilter_eq, attach_eq]
    cases search with
    | none =>
      dsimp only
      rw [List.filter_map]
      congr 2
      apply List.filter_congr
      intro t _
      simp [queryTruthy]
    | some v =>
      cases v with
      | other text => exact absurd rfl (hsearch text)
      | str search =>
        dsimp only
        by_cases hs : search ≠ ""
        · rw [if_pos hs, List.filter_filter, List.filter_map]
          congr 2
          apply List.filter_congr
          intro t _
          simp [queryTruthy, queryText, hs, Bool.and_comm]
        · rw [if_neg hs, List.filter_map]
          congr 2
          apply List.filter_congr
          intro t _
          simp [queryTruthy, hs]

/-- The task list throws when `search` is an array or object and at least
one, and no more than a statement may have placeholders, tasks are selected. -/
theorem listTasks_of_other_search (rt : Runtime) (s : Store) (user : AuthUser) (q : TaskQuery)
    (text : String) (hsearch : q.search = some (QueryValue.other text))
    (hpos : 0 < (selectTasksOrdered s user q.worker).length)
    (hbound : (selectTasksOrdered s user q.worker).length ≤ maxVariableNumber) :
    listTasks rt s user q = Response.threw "TypeError: search.toLowerCase is not a function" := by
  unfold listTasks
  dsimp only
  have h0 : ¬ ((selectTasksOrdered s user q.worker).map Task.id).length = 0 := by
    rw [List.length_map]
    exact Nat.ne_of_gt hpos
  have h1 : ¬ maxVariableNumber < ((selectTasksOrdered s user q.worker).map Task.id).length := by
    rw [List.length_map]
    exact not_lt.2 hbound
  rw [if_neg h0, if_neg h1, hsearch]

/-- An admin without an assignee filter selects every task. -/
theorem selectTasks_admin1 (s : Store) : selectTasks s admin1 none = s.tasks := by
  unfold selectTasks
  rw [List.filter_eq_self]
  intro t _
  have h1 : ¬ (truthy none = true ∧ (none : Option String) ≠ some "all") := by
    intro h
    exact Bool.false_ne_true h.1
  have h2 : ¬ (admin1.role = "worker") := by decide
  unfold assigneeClause
  rw [if_neg h1, if_neg h2]
  rfl

/-- The candidate list of `admin1` over `bigStore` has 32767 tasks. -/
theorem length_candidates_bigStore :
    (selectTasksOrdered bigStore admin1 none).length = 32767 := by
  rw [length_selectTasksOrdered, selectTasks_admin1]
  unfold bigStore
  dsimp only
  rw [List.length_map, List.length_range]

/-- C6 as stated fails: over a store with 32767 tasks the task list of
`admin1` is not the filtered candidate list but 500 `Database error`, because
the errors query has one placeholder per candidate; and with an array for
`search` the handler throws instead of answering. -/
theorem listTasks_not_always_list :
    (selectTasksOrdered bigStore admin1 noQuery.worker).length = 32767 ∧
    listTasks refRuntime bigStore admin1 noQuery = Response.fail 500 "Database error" ∧
    (∀ listed, listTasks refRuntime bigStore admin1 noQuery ≠ Response.json listed) ∧
    listTasks refRuntime storeE admin1 queryArraySearch =
      Response.threw "TypeError: search.toLowerCase is not a function" := by
  have hlen : maxVariableNumber < (selectTasksOrdered bigStore admin1 noQuery.worker).length := by
    show maxVariableNumber < (selectTasksOrdered bigStore admin1 none).length
    rw [length_candidates_bigStore]
    decide
  have h500 := listTasks_of_too_many refRuntime bigStore admin1 noQuery hlen
  refine ⟨length_candidates_bigStore, h500, ?_, by decide⟩
  intro listed h
  rw [h500] at h
  cases h

/-- C6 amended: when `search` is absent or a string and the candidate list has
at most 32766 tasks, the task list is, in the order of the candidate list
(which is by created time, newest first), exactly the candidates the
specification keeps: no month filter or the created-month equals the
requested month, no year filter or the created-year equals the requested
year, no search or the lower-cased search is a substring of the lower-cased
title or of the lower-cased non-empty description; and each returned task
carries exactly the error reports of the store whose task id is its id. When
the candidate list has more than 32766 tasks the route answers 500
`Database error`. -/
theorem listTasks_spec (rt : Runtime) (s : Store) (user : AuthUser) (q : TaskQuery)
    [DecidablePred (Kept rt q)]
    (hsearch : ∀ text, q.search ≠ some (QueryValue.other text)) :
    ((selectTasksOrdered s user q.worker).length ≤ maxVariableNumber →
      listTasks rt s user q =
        Response.json
          (((selectTasksOrdered s user q.worker).filter fun t => decide (Kept rt q t)).map
            fun t =>
              { task := t, errors := s.errors.filter fun e => decide (e.task_id = t.id) })) ∧
    (maxVariableNumber < (selectTasksOrdered s user q.worker).length →
      listTasks rt s user q = Response.fail 500 "Database error") ∧
    List.Sorted (fun a b : Task => b.created_at ≤ a.created_at)
      (selectTasksOrdered s user q.worker) := by
  refine ⟨fun hbound => ?_, listTasks_of_too_many rt s user q,
    selectTasksOrdered_sorted s user q.worker⟩
  rw [listTasks_eq rt s user q hbound hsearch]
  congr 2
  apply List.filter_congr
  intro t _
  rw [Bool.eq_iff_iff, decide_eq_true_iff, codeFilter_iff]

/-- C6 amended, at the example store: `worker1` searching `FIX` in January
1970 gets the task titled `Fix link` with its two error reports, the one
candidate of the two that the filter keeps. -/
theorem listTasks_spec_witness :
    (∀ text, queryFix.search ≠ some (QueryValue.other text)) ∧
    (selectTasksOrdered storeE worker1 queryFix.worker).length ≤ maxVariableNumber ∧
    selectTasksOrdered storeE worker1 queryFix.worker = [taskE2, taskC] ∧
    listTasks refRuntime storeE worker1 queryFix =
      Response.json [{ task := taskC, errors := [errorE1, errorE2] }] ∧
    listTasks refRuntime storeE worker1 queryFix =
      Response.json
        (((selectTasksOrdered storeE worker1 queryFix.worker).filter fun t =>
            @decide (Kept refRuntime queryFix t) (Classical.propDecidable _)).map
          fun t =>
            { task := t, errors := storeE.errors.filter fun e => decide (e.task_id = t.id) }) :=
  ⟨(fun _ h => by cases h), by decide, by decide, by decide,
    (@listTasks_spec refRuntime storeE worker1 queryFix (fun _ => Classical.propDecidable _)
      (fun _ h => by cases h)).1 (by decide)⟩

/-! ### Statistics against the task list -/

/-- The conditional date filter of the statistics route is the date filter. -/
theorem statsTasks_eq (rt : Runtime) (s : Store) (user : AuthUser) (q : TaskQuery) :
    statsTasks rt s user q =
      (selectTasks s user q.worker).filter fun t =>
        dateMatches rt q.month q.year t.created_at := by
  unfold statsTasks
  dsimp only
  by_cases h : (queryTruthy q.month || queryTruthy q.year) = true
  · rw [if_pos h]
  · rw [if_neg h]
    simp only [Bool.or_eq_true, not_or, Bool.not_eq_true] at h
    symm
    rw [List.filter_eq_self]
    intro t _
    simp [dateMatches, h.1, h.2]

/-- The statistics count no more tasks than the task list has candidates. -/
theorem length_statsTasks_le (rt : Runtime) (s : Store) (user : AuthUser) (q : TaskQuery) :
    (statsTasks rt s user q).length ≤ (selectTasksOrdered s user q.worker).length := by
  rw [statsTasks_eq, length_selectTasksOrdered]
  exact List.length_filter_le _ _

/-- The statistics route answers 500 when more tasks are counted than the
count query may have placeholders. -/
theorem computeStats_of_too_many (rt : Runtime) (s : Store) (user : AuthUser) (q : TaskQuery)
    (h : maxVariableNumber < (statsTasks rt s user q).length) :
    computeStats rt s user q = Response.fail 500 "Database error" := by
  unfold computeStats
  dsimp only
  have h0 : ¬ ((statsTasks rt s user q).map Task.id).length = 0 := by
    rw [List.length_map]
    exact Nat.ne_of_gt (lt_of_le_of_lt (Nat.zero_le _) h)
  have h1 : maxVariableNumber < ((statsTasks rt s user q).map Task.id).length := by
    rw [List.length_map]
    exact h
  rw [if_neg h0, if_pos h1]

/-- The body of the statistics route when no more tasks are counted than the
count query may have placeholders. -/
theorem computeStats_eq (rt : Runtime) (s : Store) (user : AuthUser) (q : TaskQuery)
    (h : (statsTasks rt s user q).length ≤ maxVariableNumber) :
    computeStats rt s user q =
      Response.json
        { total := (statsTasks rt s user q).length,
          completed := ((statsTasks rt s user q).filter fun t =>
            decide (t.status = "completed") || decide (t.status = "approved")).length,
          approved := ((statsTasks rt s user q).filter fun t =>
            decide (t.status = "approved")).length,
          pending := ((statsTasks rt s user q).filter fun t =>
            decide (t.status = "pending")).length,
          errors := (s.errors.filter fun e =>
            decide (e.task_id ∈ (statsTasks rt s user q).map Task.id)).length,
          successRate := successRate
            (((statsTasks rt s user q).filter fun t =>
              decide (t.status = "completed") || decide (t.status = "approved")).length)
            (statsTasks rt s user q).length } := by
  unfold computeStats
  dsimp only
  by_cases h0 : ((statsTasks rt s user q).map Task.id).length = 0
  · rw [if_pos h0]
    rw [List.length_map] at h0
    have hnil : statsTasks rt s user q = [] := List.length_eq_zero.1 h0
    rw [hnil]
    simp [successRate]
  · have h1 : ¬ maxVariableNumber < ((statsTasks rt s user q).map Task.id).length := by
      rw [List.length_map]
      exact not_lt.2 h
    rw [if_neg h0, if_neg h1]

/-- With distinct task ids, the error reports of a set of tasks are counted
once per report by summing over the tasks. -/
theorem sum_errors_eq_count (errors : List ErrorReport) (tasks : List Task)
    (h : (tasks.map Task.id).Nodup) :
    (tasks.map fun t => (errors.filter fun e => decide (e.task_id = t.id)).length).sum =
      (errors.filter fun e => decide (e.task_id ∈ tasks.map Task.id)).length := by
  induction tasks with
  | nil => simp
  | cons a as ih =>
    rw [List.map_cons, List.nodup_cons] at h
    rw [List.map_cons, List.sum_cons, ih h.2]
    clear ih
    induction errors with
    | nil => simp
    | cons e es ihe =>
      by_cases h1 : e.task_id = a.id
      · have h2 : e.task_id ∉ as.map Task.id := by rw [h1]; exact h.1
        have h3 : e.task_id ∈ (a :: as).map Task.id := by
          rw [List.map_cons, h1]; exact List.mem_cons_self _ _
        rw [List.filter_cons_of_pos (by simpa using h1),
          List.filter_cons_of_neg (by simpa using h2),
          List.filter_cons_of_pos (by simpa using h3), List.length_cons, List.length_cons,
          ← ihe]
        omega
      · by_cases h2 : e.task_id ∈ as.map Task.id
        · have h3 : e.task_id ∈ (a :: as).map Task.id := by
            rw [List.map_cons]; exact List.mem_cons_of_mem _ h2
          rw [List.filter_cons_of_neg (by simpa using h1),
            List.filter_cons_of_pos (by simpa using h2),
            List.filter_cons_of_pos (by simpa using h3), List.length_cons, List.length_cons,
            ← ihe]
          omega
        · have h3 : e.task_id ∉ (a :: as).map Task.id := by
            rw [List.map_cons, List.mem_cons]
            exact fun hh => hh.elim h1 h2
          rw [List.filter_cons_of_neg (by simpa using h1),
            List.filter_cons_of_neg (by simpa using h2),
            List.filter_cons_of_neg (by simpa using h3), ← ihe]

/-- The task list without a search, as the date filter over the ordered
candidates, when the errors query has no more placeholders than a statement
may have. -/
theorem listTasks_no_search (rt : Runtime) (s : Store) (user : AuthUser) (q : TaskQuery)
    (hbound : (selectTasksOrdered s user q.worker).length ≤ maxVariableNumber) :
    listTasks rt s user { q with search := none } =
      Response.json
        (((selectTasksOrdered s user q.worker).filter fun t =>
            dateMatches rt q.month q.year t.created_at).map
          fun t => { task := t, errors := s.errors.filter fun e => decide (e.task_id = t.id) }) := by
  rw [listTasks_eq rt s user { q with search := none } hbound (fun _ h => by cases h)]
  congr 2
  apply List.filter_congr
  intro t _
  simp [queryTruthy]

/-- C8 as stated fails: over a store with 32767 tasks created in November
2023, the statistics of `admin1` for June count no task and answer 200 with
zeros, while the task list for the same query binds all 32767 candidate ids
before the month filter and answers 500 `Database error`. -/
theorem computeStats_and_listTasks_disagree :
    computeStats refRuntime bigStore admin1 queryJune =
      Response.json
        { total := 0, completed := 0, approved := 0, pending := 0, errors := 0,
          successRate := 0 } ∧
    listTasks refRuntime bigStore admin1 { queryJune with search := none } =
      Response.fail 500 "Database error" := by
  constructor
  · have hnil : statsTasks refRuntime bigStore admin1 queryJune = [] := by
      rw [statsTasks_eq]
      show (selectTasks bigStore admin1 none).filter _ = []
      rw [selectTasks_admin1, List.filter_eq_nil_iff]
      intro t ht
      unfold bigStore at ht
      dsimp only at ht
      rw [List.mem_map] at ht
      obtain ⟨i, hi, rfl⟩ := ht
      rw [List.mem_range] at hi
      have hd : currentTimestamp (1700000000000 + i) / 86400000 = 19675 := by
        unfold currentTimestamp
        omega
      have hc : civil (currentTimestamp (1700000000000 + i)) = (2023, 10) := by
        unfold civil
        simp only [hd]
        decide
      have hm : refRuntime.getMonth (bigTask i).created_at = 10 := by
        show ((civil (currentTimestamp (1700000000000 + i))).2 : Int) = 10
        rw [hc]
        rfl
      have hmonth : (!queryTruthy queryJune.month ||
          decide (some (10 : Int) = refRuntime.parseInt (queryText queryJune.month))) = false := by
        decide
      unfold dateMatches
      dsimp only
      rw [hm, hmonth, Bool.false_and]
      exact Bool.false_ne_true
    unfold computeStats
    dsimp only
    rw [hnil]
    rfl
  · apply listTasks_of_too_many
    show maxVariableNumber < (selectTasksOrdered bigStore admin1 none).length
    rw [length_candidates_bigStore]
    decide

/-- C8 amended: with distinct task ids (the primary key) and a candidate list
of at most 32766 tasks, the statistics agree with the task list the same
requester gets for the same assignee, month and year and no search: total is
the number of listed tasks, pending, approved and completed are the numbers of
listed tasks whose status is pending, approved, and completed or approved, and
errors is the sum of the lengths of the error lists attached to the listed
tasks. With more than 32766 candidates the task list answers 500
`Database error`. -/
theorem computeStats_agrees_with_listTasks (rt : Runtime) (s : Store) (user : AuthUser)
    (q : TaskQuery) (hpk : (s.tasks.map Task.id).Nodup) :
    ((selectTasksOrdered s user q.worker).length ≤ maxVariableNumber →
      ∃ (st : Stats) (listed : List TaskWithErrors),
        computeStats rt s user q = Response.json st ∧
        listTasks rt s user { q with search := none } = Response.json listed ∧
        st.total = listed.length ∧
        st.pending = (listed.filter fun r => decide (r.task.status = "pending")).length ∧
        st.approved = (listed.filter fun r => decide (r.task.status = "approved")).length ∧
        st.completed =
          (listed.filter fun r =>
            decide (r.task.status = "completed") || decide (r.task.status = "approved")).length ∧
        st.errors = (listed.map fun r => r.errors.length).sum) ∧
    (maxVariableNumber < (selectTasksOrdered s user q.worker).length →
      listTasks rt s user { q with search := none } = Response.fail 500 "Database error") := by
  refine ⟨fun hbound => ?_, fun h => listTasks_of_too_many rt s user { q with search := none } h⟩
  have hstat : (statsTasks rt s user q).length ≤ maxVariableNumber :=
    le_trans (length_statsTasks_le rt s user q) hbound
  have hperm : ((selectTasksOrdered s user q.worker).filter fun t =>
        dateMatches rt q.month q.year t.created_at).Perm
      ((selectTasks s user q.worker).filter fun t =>
        dateMatches rt q.month q.year t.created_at) :=
    (List.perm_insertionSort _ _).filter _
  have hnodup : (((selectTasks s user q.worker).filter fun t =>
      dateMatches rt q.month q.year t.created_at).map Task.id).Nodup := by
    apply List.Nodup.sublist _ hpk
    apply List.Sublist.map
    exact (List.filter_sublist _).trans (List.filter_sublist _)
  have hcount : ∀ p : Task → Bool,
      ((((selectTasksOrdered s user q.worker).filter fun t =>
          dateMatches rt q.month q.year t.created_at).map fun t =>
          ({ task := t, errors := s.errors.filter fun e => decide (e.task_id = t.id) }
            : TaskWithErrors)).filter fun r => p r.task).length =
      (((selectTasks s user q.worker).filter fun t =>
          dateMatches rt q.month q.year t.created_at).filter p).length := by
    intro p
    rw [List.filter_map, List.length_map]
    exact (hperm.filter _).length_eq
  have hsum : ((((selectTasksOrdered s user q.worker).filter fun t =>
          dateMatches rt q.month q.year t.created_at).map fun t =>
          ({ task := t, errors := s.errors.filter fun e => decide (e.task_id = t.id) }
            : TaskWithErrors)).map fun r => r.errors.length).sum =
      (s.errors.filter fun e => decide (e.task_id ∈
        ((selectTasks s user q.worker).filter fun t =>
          dateMatches rt q.month q.year t.created_at).map Task.id)).length := by
    rw [List.map_map, ← sum_errors_eq_count s.errors _ hnodup]
    exact (hperm.map _).sum_eq
  have hlen : (((selectTasksOrdered s user q.worker).filter fun t =>
          dateMatches rt q.month q.year t.created_at).map fun t =>
          ({ task := t, errors := s.errors.filter fun e => decide (e.task_id = t.id) }
            : TaskWithErrors)).length =
      ((selectTasks s user q.worker).filter fun t =>
          dateMatches rt q.month q.year t.created_at).length := by
    rw [List.length_map]
    exact hperm.length_eq
  rw [computeStats_eq rt s user q hstat, statsTasks_eq]
  refine ⟨_, _, rfl, listTasks_no_search rt s user q hbound, ?_, ?_, ?_, ?_, ?_⟩
  · exact hlen.symm
  · exact (hcount fun t => decide (t.status = "pending")).symm
  · exact (hcount fun t => decide (t.status = "approved")).symm
  · exact (hcount fun t =>
      decide (t.status = "completed") || decide (t.status = "approved")).symm
  · exact hsum.symm

/-- C8 amended, at the example store: the statistics of `admin1` for January
1970 against the task list of `admin1` for January 1970: three tasks, two of
them completed or approved, one approved, one pending, two error reports. -/
theorem computeStats_agrees_with_listTasks_witness :
    (storeE.tasks.map Task.id).Nodup ∧
    (selectTasksOrdered storeE admin1 queryJanuary.worker).length ≤ maxVariableNumber ∧
    computeStats refRuntime storeE admin1 queryJanuary =
      Response.json
        { total := 3, completed := 2, approved := 1, pending := 1, errors := 2,
          successRate := 67 } ∧
    ∃ (st : Stats) (listed : List TaskWithErrors),
      computeStats refRuntime storeE admin1 queryJanuary = Response.json st ∧
      listTasks refRuntime storeE admin1 { queryJanuary with search := none } =
        Response.json listed ∧
      st.total = listed.length ∧
      st.pending = (listed.filter fun r => decide (r.task.status = "pending")).length ∧
      st.approved = (listed.filter fun r => decide (r.task.status = "approved")).length ∧
      st.completed =
        (listed.filter fun r =>
          decide (r.task.status = "completed") || decide (r.task.status = "approved")).length ∧
      st.errors = (listed.map fun r => r.errors.length).sum :=
  ⟨by decide, by decide, by decide,
    (computeStats_agrees_with_listTasks refRuntime storeE admin1 queryJanuary (by decide)).1
      (by decide)⟩

/-! ### Double arithmetic of the success rate -/

/-- The rounded quotient is within one half of the exact quotient. -/
theorem roundHalfEven_near (a d : Nat) (hd : 0 < d) :
    2 * a ≤ 2 * (d * roundHalfEven a d) + d ∧ 2 * (d * roundHalfEven a d) ≤ 2 * a + d := by
  have hdm := Nat.div_add_mod a d
  have hlt := Nat.mod_lt a hd
  have hsucc : d * (a / d + 1) = d * (a / d) + d := Nat.mul_succ _ _
  unfold roundHalfEven
  generalize hX : d * (a / d) = X at hdm hsucc
  generalize a % d = r at hdm hlt
  split_ifs with h1 h2 h3
  · rw [hX]; omega
  · rw [hsucc]; omega
  · rw [hX]; omega
  · rw [hsucc]; omega

/-- A quotient that is at most the integer `N` rounds to at most `N`. -/
theorem roundHalfEven_le (a d N : Nat) (hd : 0 < d) (h : a ≤ N * d) :
    roundHalfEven a d ≤ N := by
  have h2 := (roundHalfEven_near a d hd).2
  have h3 : d * (2 * roundHalfEven a d) < d * (2 * N + 2) := by
    have e1 : d * (2 * roundHalfEven a d) = 2 * (d * roundHalfEven a d) := by ring
    have e2 : d * (2 * N + 2) = 2 * (N * d) + 2 * d := by ring
    rw [e1, e2]
    omega
  have h4 := Nat.lt_of_mul_lt_mul_left h3
  omega

/-- The leading bit brackets the number. -/
theorem log2Fuel_spec (fuel n : Nat) (hf : n ≤ fuel) (hn : 0 < n) :
    2 ^ log2Fuel fuel n ≤ n ∧ n < 2 ^ (log2Fuel fuel n + 1) := by
  induction fuel generalizing n with
  | zero => omega
  | succ f ih =>
    unfold log2Fuel
    by_cases h2 : n < 2
    · rw [if_pos h2]
      have : n = 1 := by omega
      subst this
      decide
    · rw [if_neg h2]
      have hhalf : 0 < n / 2 := Nat.div_pos (by omega) (by decide)
      have hle : n / 2 ≤ f := by omega
      obtain ⟨i1, i2⟩ := ih (n / 2) hle hhalf
      rw [pow_succ, pow_succ]
      constructor <;> omega

/-- The leading bit brackets the number. -/
theorem log2Floor_spec (n : Nat) (hn : 0 < n) :
    2 ^ log2Floor n ≤ n ∧ n < 2 ^ (log2Floor n + 1) :=
  log2Fuel_spec n n le_rfl hn

/-- A number below `2 ^ (k + 1)` has its leading bit at `k` or lower. -/
theorem log2Floor_le_of_lt (n k : Nat) (hn : 0 < n) (h : n < 2 ^ (k + 1)) :
    log2Floor n ≤ k := by
  have h1 := (log2Floor_spec n hn).1
  have h2 : 2 ^ log2Floor n < 2 ^ (k + 1) := lt_of_le_of_lt h1 h
  have h3 := (Nat.pow_lt_pow_iff_right (by decide : 1 < 2)).1 h2
  omega

/-- A number that is at least `2 ^ k` has its leading bit at `k` or higher. -/
theorem le_log2Floor_of_le (n k : Nat) (h : 2 ^ k ≤ n) : k ≤ log2Floor n := by
  have hn : 0 < n := lt_of_lt_of_le (Nat.pow_pos (by decide)) h
  have h1 := (log2Floor_spec n hn).2
  have h2 : 2 ^ k < 2 ^ (log2Floor n + 1) := lt_of_le_of_lt h h1
  have h3 := (Nat.pow_lt_pow_iff_right (by decide : 1 < 2)).1 h2
  omega

/-- The normalising shift is at least `K` when the leading bits of the
numerator and the denominator differ by at most `52 - K`. -/
theorem le_normShift (n d : Nat) (K : Int)
    (h : (log2Floor n : Int) - (log2Floor d : Int) ≤ 52 - K) : K ≤ normShift n d := by
  unfold normShift
  dsimp only
  split_ifs <;> omega

/-- Rounding a non-zero rational whose normalising shift is not negative. -/
theorem ofRat_of_shift_nonneg (n d : Nat) (K : Nat) (hn : n ≠ 0)
    (hK : (K : Int) ≤ normShift n d) :
    ∃ k : Nat, K ≤ k ∧
      Double.ofRat n d = { mant := roundHalfEven (n * 2 ^ k) d, exp := -(k : Int) } := by
  have h0 : (0 : Int) ≤ normShift n d := le_trans (Int.ofNat_nonneg K) hK
  refine ⟨(normShift n d).toNat, ?_, ?_⟩
  · have := Int.toNat_of_nonneg h0
    omega
  · unfold Double.ofRat
    rw [if_neg hn]
    dsimp only
    have h1 : (-(normShift n d)).toNat = 0 := by
      apply Int.toNat_eq_zero.2
      omega
    rw [h1, pow_zero, Nat.mul_one, Int.toNat_of_nonneg h0]

/-- JavaScript `Math.round` of a double with a non-positive exponent. -/
theorem mathRound_neg_exp (m k : Nat) :
    Double.mathRound { mant := m, exp := -(k : Int) } = (2 * m + 2 ^ k) / (2 * 2 ^ k) := by
  unfold Double.mathRound
  dsimp only
  rw [Int.toNat_neg_nat, neg_neg, Int.toNat_natCast, pow_zero, Nat.mul_one]

/-- Rounding zero. -/
theorem ofRat_zero (d : Nat) : Double.ofRat 0 d = { mant := 0, exp := 0 } := by
  unfold Double.ofRat
  rw [if_pos rfl]

/-- JavaScript `Math.round(0)`. -/
theorem mathRound_zero : Double.mathRound { mant := 0, exp := 0 } = 0 := by decide

/-- The success rate of no completed task is 0. -/
theorem successRate_zero_left (t : Nat) : successRate 0 t = 0 := by
  unfold successRate
  split_ifs
  · unfold Double.div Double.mulNat
    rw [ofRat_zero]
    rw [Nat.zero_mul, Nat.zero_mul, ofRat_zero, mathRound_zero]
  · rfl

/-- The shape of the success rate of `c` completed tasks out of `t`, for
`0 < c ≤ t`: the quotient is rounded at a shift of at least 52 and the product
with 100 at a shift of at least 46. -/
theorem successRate_form (c t : Nat) (hc : 0 < c) (hct : c ≤ t) :
    ∃ k k' : Nat, 52 ≤ k ∧ 46 ≤ k' ∧ roundHalfEven (c * 2 ^ k) t ≤ 2 ^ k ∧
      ((roundHalfEven (c * 2 ^ k) t = 0 ∧ successRate c t = 0) ∨
        successRate c t =
          (2 * roundHalfEven (roundHalfEven (c * 2 ^ k) t * 100 * 2 ^ k') (2 ^ k) + 2 ^ k') /
            (2 * 2 ^ k')) := by
  have ht : 0 < t := lt_of_lt_of_le hc hct
  have hlg : log2Floor c ≤ log2Floor t :=
    log2Floor_le_of_lt c _ hc (lt_of_le_of_lt hct (log2Floor_spec t ht).2)
  obtain ⟨k, hk, hdiv⟩ := ofRat_of_shift_nonneg c t 52 (Nat.pos_iff_ne_zero.1 hc)
    (le_normShift c t 52 (by push_cast; omega))
  have hm : roundHalfEven (c * 2 ^ k) t ≤ 2 ^ k :=
    roundHalfEven_le _ _ _ ht (by rw [Nat.mul_comm]; exact Nat.mul_le_mul_left _ hct)
  have hrate : successRate c t =
      (Double.mulNat { mant := roundHalfEven (c * 2 ^ k) t, exp := -(k : Int) } 100).mathRound := by
    unfold successRate
    rw [if_pos ht]
    unfold Double.div
    rw [hdiv]
  have hmul : Double.mulNat { mant := roundHalfEven (c * 2 ^ k) t, exp := -(k : Int) } 100 =
      Double.ofRat (roundHalfEven (c * 2 ^ k) t * 100) (2 ^ k) := by
    unfold Double.mulNat
    dsimp only
    rw [Int.toNat_neg_nat, neg_neg, Int.toNat_natCast, pow_zero, Nat.mul_one]
  by_cases hz : roundHalfEven (c * 2 ^ k) t = 0
  · refine ⟨k, 46, hk, le_rfl, hm, Or.inl ⟨hz, ?_⟩⟩
    rw [hrate, hmul, hz, Nat.zero_mul, ofRat_zero, mathRound_zero]
  · have hpos : 0 < roundHalfEven (c * 2 ^ k) t * 100 := by
      have := Nat.pos_of_ne_zero hz
      omega
    have hlt : roundHalfEven (c * 2 ^ k) t * 100 < 2 ^ (k + 6 + 1) := by
      have e : 2 ^ (k + 6 + 1) = 2 ^ k * 128 := by
        rw [pow_add, pow_add]; norm_num; ring
      rw [e]
      have hp : 0 < 2 ^ k := Nat.pow_pos (by decide)
      calc roundHalfEven (c * 2 ^ k) t * 100 ≤ 2 ^ k * 100 := Nat.mul_le_mul_right _ hm
        _ < 2 ^ k * 128 := (Nat.mul_lt_mul_left hp).2 (by decide)
    have hl1 := log2Floor_le_of_lt _ (k + 6) hpos hlt
    have hl2 := le_log2Floor_of_le (2 ^ k) k le_rfl
    obtain ⟨k', hk', hprod⟩ := ofRat_of_shift_nonneg
      (roundHalfEven (c * 2 ^ k) t * 100) (2 ^ k) 46 (Nat.pos_iff_ne_zero.1 hpos)
      (le_normShift _ _ 46 (by push_cast; omega))
    refine ⟨k, k', hk, hk', hm, Or.inr ?_⟩
    rw [hrate, hmul, hprod, mathRound_neg_exp]

/-- The error analysis of `Math.round((c / t) * 100)`: with the quotient
rounded at `A = 2 ^ k`, `k ≥ 52`, the product rounded at `B = 2 ^ k'`,
`k' ≥ 46`, and fewer than `2 ^ 32` tasks, the result `r` is within one half of
`100 * c / t`. -/
theorem rate_near_core (c t m m' r A B : Nat) (hA : 2 ^ 52 ≤ A) (hB : 2 ^ 46 ≤ B)
    (htb : t < 2 ^ 32)
    (a1 : 2 * (c * A) ≤ 2 * (t * m) + t) (a2 : 2 * (t * m) ≤ 2 * (c * A) + t)
    (b1 : 2 * (m * 100 * B) ≤ 2 * (A * m') + A) (b2 : 2 * (A * m') ≤ 2 * (m * 100 * B) + A)
    (c1 : r * (2 * B) ≤ 2 * m' + B) (c2 : 2 * m' + B < (r + 1) * (2 * B)) :
    200 * c ≤ 2 * (r * t) + t ∧ 2 * (r * t) ≤ 200 * c + t := by
  have hApos : 0 < A := lt_of_lt_of_le (by norm_num) hA
  have hBpos : 0 < B := lt_of_lt_of_le (by norm_num) hB
  have p5 : A * t * 2 ^ 14 ≤ A * B := by
    rw [Nat.mul_assoc]
    apply Nat.mul_le_mul_left
    have : t * 2 ^ 14 ≤ 2 ^ 46 := by
      have e : (2 : Nat) ^ 46 = 2 ^ 32 * 2 ^ 14 := by norm_num
      rw [e]
      exact Nat.mul_le_mul_right _ (le_of_lt htb)
    exact le_trans this hB
  have p6 : 100 * t * B * 2 ^ 13 ≤ A * B := by
    have : 100 * t * 2 ^ 13 ≤ 2 ^ 52 := by
      have h1 : 100 * t * 2 ^ 13 ≤ 100 * 2 ^ 32 * 2 ^ 13 :=
        Nat.mul_le_mul_right _ (Nat.mul_le_mul_left _ (le_of_lt htb))
      exact le_trans h1 (by norm_num)
    have h2 : 100 * t * 2 ^ 13 * B ≤ A * B := Nat.mul_le_mul_right _ (le_trans this hA)
    calc 100 * t * B * 2 ^ 13 = 100 * t * 2 ^ 13 * B := by ring
      _ ≤ A * B := h2
  have hAB : 0 < A * B := Nat.mul_pos hApos hBpos
  constructor
  · by_contra hcon
    have H : 2 * (r * t) + t + 1 ≤ 200 * c := by omega
    have P1 := Nat.mul_le_mul_right (A * B) H
    have P2 := Nat.mul_le_mul_right (100 * B) a1
    have P3 := Nat.mul_le_mul_right t b1
    have P4 : (2 * m' + B) * (A * t) ≤ (r + 1) * (2 * B) * (A * t) :=
      Nat.mul_le_mul_right _ (le_of_lt c2)
    zify at P1 P2 P3 P4 p5 p6 hAB
    linarith [P1, P2, P3, P4, p5, p6, hAB]
  · by_contra hcon
    have H : 200 * c + t + 1 ≤ 2 * (r * t) := by omega
    have P1 := Nat.mul_le_mul_right (A * B) H
    have P2 := Nat.mul_le_mul_right (100 * B) a2
    have P3 := Nat.mul_le_mul_right t b2
    have P4 := Nat.mul_le_mul_right (A * t) c1
    zify at P1 P2 P3 P4 p5 p6 hAB
    linarith [P1, P2, P3, P4, p5, p6, hAB]

/-- The floor that `Math.round` takes. -/
theorem floor_div_spec (n d : Nat) (hd : 0 < d) : n / d * d ≤ n ∧ n < (n / d + 1) * d := by
  constructor
  · exact Nat.div_mul_le_self n d
  · rw [Nat.mul_comm]
    exact Nat.lt_mul_div_succ n hd

/-- The success rate never exceeds 100. -/
theorem successRate_le (c t : Nat) (hct : c ≤ t) : successRate c t ≤ 100 := by
  rcases Nat.eq_zero_or_pos c with hc | hc
  · rw [hc, successRate_zero_left]
    exact Nat.zero_le _
  · obtain ⟨k, k', _, _, hm, hform⟩ := successRate_form c t hc hct
    rcases hform with ⟨_, h0⟩ | hr
    · rw [h0]
      exact Nat.zero_le _
    · rw [hr]
      have hB : 0 < 2 ^ k' := Nat.pow_pos (by decide)
      have hm' : roundHalfEven (roundHalfEven (c * 2 ^ k) t * 100 * 2 ^ k') (2 ^ k) ≤
          100 * 2 ^ k' := by
        apply roundHalfEven_le _ _ _ (Nat.pow_pos (by decide))
        calc roundHalfEven (c * 2 ^ k) t * 100 * 2 ^ k'
            ≤ 2 ^ k * 100 * 2 ^ k' :=
              Nat.mul_le_mul_right _ (Nat.mul_le_mul_right _ hm)
          _ = 100 * 2 ^ k' * 2 ^ k := by ring
      have hlt : (2 * roundHalfEven (roundHalfEven (c * 2 ^ k) t * 100 * 2 ^ k') (2 ^ k) +
          2 ^ k') / (2 * 2 ^ k') < 101 := by
        rw [Nat.div_lt_iff_lt_mul (by omega)]
        omega
      omega

/-- With fewer than `2 ^ 32` tasks, the success rate is within one half of
`100 * c / t`. -/
theorem successRate_near (c t : Nat) (hct : c ≤ t) (ht : 0 < t) (htb : t < 2 ^ 32) :
    200 * c ≤ 2 * (successRate c t * t) + t ∧ 2 * (successRate c t * t) ≤ 200 * c + t := by
  rcases Nat.eq_zero_or_pos c with hc | hc
  · rw [hc, successRate_zero_left]
    omega
  · obtain ⟨k, k', hk, hk', _, hform⟩ := successRate_form c t hc hct
    have hA : 2 ^ 52 ≤ 2 ^ k := Nat.pow_le_pow_right (by decide) hk
    have hB : 2 ^ 46 ≤ 2 ^ k' := Nat.pow_le_pow_right (by decide) hk'
    have hApos : 0 < 2 ^ k := Nat.pow_pos (by decide)
    have hBpos : 0 < 2 ^ k' := Nat.pow_pos (by decide)
    obtain ⟨a1, a2⟩ := roundHalfEven_near (c * 2 ^ k) t ht
    rcases hform with ⟨hz, _⟩ | hr
    · rw [hz] at a1
      have h1 : 1 * 2 ^ 52 ≤ c * 2 ^ k := Nat.mul_le_mul hc hA
      have h2 : t < 2 ^ 52 := lt_trans htb (by norm_num)
      omega
    · obtain ⟨b1, b2⟩ :=
        roundHalfEven_near (roundHalfEven (c * 2 ^ k) t * 100 * 2 ^ k') (2 ^ k) hApos
      obtain ⟨c1, c2⟩ := floor_div_spec
        (2 * roundHalfEven (roundHalfEven (c * 2 ^ k) t * 100 * 2 ^ k') (2 ^ k) + 2 ^ k')
        (2 * 2 ^ k') (by omega)
      rw [← hr] at c1 c2
      exact rate_near_core c t _ _ _ _ _ hA hB htb a1 a2 b1 b2 c1 c2

/-- C7 as stated fails: over a store with 32767 tasks the statistics route
of `admin1` counts all of them, the count query has more placeholders than a
statement may have, and the route answers 500 `Database error`, a body with no
statistics. -/
theorem computeStats_not_always_stats :
    (statsTasks refRuntime bigStore admin1 noQuery).length = 32767 ∧
    computeStats refRuntime bigStore admin1 noQuery = Response.fail 500 "Database error" ∧
    ∀ st, computeStats refRuntime bigStore admin1 noQuery ≠ Response.json st := by
  have hlen : (statsTasks refRuntime bigStore admin1 noQuery).length = 32767 := by
    have h1 : statsTasks refRuntime bigStore admin1 noQuery = selectTasks bigStore admin1 none :=
      rfl
    rw [h1, ← length_selectTasksOrdered]
    exact length_candidates_bigStore
  have h500 : computeStats refRuntime bigStore admin1 noQuery =
      Response.fail 500 "Database error" := by
    apply computeStats_of_too_many
    rw [hlen]
    decide
  refine ⟨hlen, h500, ?_⟩
  intro st h
  rw [h500] at h
  cases h

/-- C7 amended: when at most 32766 tasks are counted, the statistics have
approved at most completed, a natural-number success rate of at most 100 that
is 0 when total is 0, and when total is positive the success rate is an
integer nearest to `completed / total * 100` (it differs from it by at most
one half); total is the number of counted tasks and completed the number of
them whose status is completed or approved. When more than 32766 tasks are
counted the route answers 500 `Database error`. -/
theorem computeStats_bounds (rt : Runtime) (s : Store) (user : AuthUser) (q : TaskQuery) :
    ((statsTasks rt s user q).length ≤ maxVariableNumber →
      ∃ st : Stats, computeStats rt s user q = Response.json st ∧
        st.total = (statsTasks rt s user q).length ∧
        st.completed = ((statsTasks rt s user q).filter fun t =>
          decide (t.status = "completed") || decide (t.status = "approved")).length ∧
        st.approved ≤ st.completed ∧ st.successRate ≤ 100 ∧
        (st.total = 0 → st.successRate = 0) ∧
        (0 < st.total →
          |(st.successRate : ℚ) - (st.completed : ℚ) / (st.total : ℚ) * 100| ≤ 1 / 2)) ∧
    (maxVariableNumber < (statsTasks rt s user q).length →
      computeStats rt s user q = Response.fail 500 "Database error") := by
  refine ⟨fun hbound => ?_, computeStats_of_too_many rt s user q⟩
  have hcompl : ((statsTasks rt s user q).filter fun t =>
      decide (t.status = "completed") || decide (t.status = "approved")).length ≤
      (statsTasks rt s user q).length := List.length_filter_le _ _
  have happ : ((statsTasks rt s user q).filter fun t => decide (t.status = "approved")).length ≤
      ((statsTasks rt s user q).filter fun t =>
        decide (t.status = "completed") || decide (t.status = "approved")).length := by
    apply List.Sublist.length_le
    apply List.monotone_filter_right
    intro t ht
    simp only [Bool.or_eq_true, ht, or_true]
  have hlen : (statsTasks rt s user q).length < 2 ^ 32 :=
    lt_of_le_of_lt hbound (by decide)
  refine ⟨_, computeStats_eq rt s user q hbound, rfl, rfl, happ, successRate_le _ _ hcompl,
    ?_, ?_⟩
  · intro ht
    show successRate _ (statsTasks rt s user q).length = 0
    rw [show (statsTasks rt s user q).length = 0 from ht]
    unfold successRate
    rw [if_neg (lt_irrefl 0)]
  · intro ht
    have htpos : 0 < (statsTasks rt s user q).length := ht
    obtain ⟨n1, n2⟩ := successRate_near _ _ hcompl htpos hlen
    show |((successRate (((statsTasks rt s user q).filter fun t =>
        decide (t.status = "completed") || decide (t.status = "approved")).length)
        (statsTasks rt s user q).length : Nat) : ℚ) -
      ((((statsTasks rt s user q).filter fun t =>
        decide (t.status = "completed") || decide (t.status = "approved")).length : Nat) : ℚ) /
        (((statsTasks rt s user q).length : Nat) : ℚ) * 100| ≤ 1 / 2
    generalize successRate (((statsTasks rt s user q).filter fun t =>
        decide (t.status = "completed") || decide (t.status = "approved")).length)
        (statsTasks rt s user q).length = r at n1 n2
    generalize ((statsTasks rt s user q).filter fun t =>
        decide (t.status = "completed") || decide (t.status = "approved")).length = c at n1 n2
    generalize (statsTasks rt s user q).length = t at n1 n2 htpos
    have htq : (0 : ℚ) < (t : ℚ) := by exact_mod_cast htpos
    have q1 : (200 : ℚ) * c ≤ 2 * (r * t) + t := by exact_mod_cast n1
    have q2 : (2 : ℚ) * (r * t) ≤ 200 * c + t := by exact_mod_cast n2
    have hx : (c : ℚ) / t * 100 = 100 * c / t := by ring
    have hxt : 100 * (c : ℚ) / t * t = 100 * c := div_mul_cancel₀ _ (ne_of_gt htq)
    rw [hx, abs_le]
    generalize 100 * (c : ℚ) / t = x at hxt ⊢
    constructor
    · by_contra hcon
      push_neg at hcon
      have hp := mul_pos (sub_pos.2 hcon) htq
      linarith
    · by_contra hcon
      push_neg at hcon
      have hp := mul_pos (sub_pos.2 hcon) htq
      linarith

/-- C7 amended, at the example store: of the three tasks `admin1` sees, two
are completed or approved, and `Math.round((2 / 3) * 100)` is 67. -/
theorem computeStats_bounds_witness :
    (statsTasks refRuntime storeE admin1 noQuery).length ≤ maxVariableNumber ∧
    computeStats refRuntime storeE admin1 noQuery =
      Response.json
        { total := 3, completed := 2, approved := 1, pending := 1, errors := 2,
          successRate := 67 } ∧
    ∃ st : Stats, computeStats refRuntime storeE admin1 noQuery = Response.json st ∧
      st.total = (statsTasks refRuntime storeE admin1 noQuery).length ∧
      st.completed = ((statsTasks refRuntime storeE admin1 noQuery).filter fun t =>
        decide (t.status = "completed") || decide (t.status = "approved")).length ∧
      st.approved ≤ st.completed ∧ st.successRate ≤ 100 ∧
      (st.total = 0 → st.successRate = 0) ∧
      (0 < st.total →
        |(st.successRate : ℚ) - (st.completed : ℚ) / (st.total : ℚ) * 100| ≤ 1 / 2) :=
  ⟨by decide, by decide,
    (computeStats_bounds refRuntime storeE admin1 noQuery).1 (by decide)⟩

/-- On exact ties the double arithmetic may give either neighbour: 1 of 8 is
12.5 and gives 13, 23 of 40 is 57.5 and gives 57 (the double nearest to
23 / 40 times 100 is just below 57.5), 29 of 200 is 14.5 and gives 14. -/
theorem successRate_ties :
    successRate 1 8 = 13 ∧ successRate 23 40 = 57 ∧ successRate 29 200 = 14 := by
  refine ⟨by decide, by decide, by decide⟩

end TaskFlow
